import Mathlib

/-!
Verification development for the AI-assisted candidate ranking and response
engine of the PMInternship repository (src/app.py).

Modelling conventions:
* Python strings are modelled as `List Char` (`Str`); `str.lower` as
  character-wise `Char.toLower` (faithful on the ASCII data the program
  manipulates), `str.strip` as trimming whitespace characters on both ends.
* Python floats are modelled as exact rationals (`Rat`).  Arithmetic on
  scores is written with kernel-computable wrappers (`qadd`, `qmul`, `qdiv`,
  `qmin`, `qofNat`) built on `Rat.divInt`; bridge lemmas identify them with
  the Mathlib field operations.  `round(x, 1)` is modelled as exact
  round-half-to-even at one decimal digit.
* Fallible or external actions (the Gemini client, the session store, the
  random generator) are modelled as explicit oracle parameters.
-/

set_option maxRecDepth 100000

abbrev Str := List Char

/-- Shorthand turning a Lean string literal into the `List Char` model used
for Python strings. -/
def cs (s : String) : Str := s.toList

/-- Characters stripped by Python `str.strip()` (ASCII whitespace; the data
handled by the program contains no exotic Unicode space). -/
def isPySpace (c : Char) : Bool :=
  c = ' ' || c = '\t' || c = '\n' || c = '\r' || c = '\x0b' || c = '\x0c'

/-- Python `s.strip()`. -/
def pyStrip (s : Str) : Str :=
  ((s.dropWhile isPySpace).reverse.dropWhile isPySpace).reverse

/-- Python `s.lower()` (character-wise ASCII lowering). -/
def pyLower (s : Str) : Str := s.map Char.toLower

/-- Python `sub in hay` (substring containment). -/
def pyContains (hay sub : Str) : Bool := decide (sub <:+: hay)

/-- Python `s.split(sep)` for a one-character separator: splits at every
occurrence of the separator, keeping empty pieces (`"".split(",") == [""]`,
`"a,,b".split(",") == ["a","","b"]`). -/
def pySplit (sep : Char) : Str → List Str
  | [] => [[]]
  | c :: rest =>
    if c = sep then [] :: pySplit sep rest
    else
      match pySplit sep rest with
      | [] => [[c]]
      | h :: t => (c :: h) :: t

/-- Python `sep.join(parts)`. -/
def pyJoin (sep : Str) : List Str → Str
  | [] => []
  | [s] => s
  | s :: rest => s ++ sep ++ pyJoin sep rest

/-- Structural worker for `pyReplace`: the fuel only bounds the recursion
depth (one unit per consumed character suffices, and the zero-fuel case is
unreachable when starting with `fuel = s.length`). -/
def pyReplaceFuel (pat rep : Str) : Nat → Str → Str
  | _, [] => []
  | 0, s => s
  | fuel + 1, c :: rest =>
    if !pat.isEmpty && pat.isPrefixOf (c :: rest) then
      rep ++ pyReplaceFuel pat rep fuel ((c :: rest).drop pat.length)
    else
      c :: pyReplaceFuel pat rep fuel rest

/-- Python `s.replace(pat, rep)`: replace non-overlapping occurrences left
to right (`pat` is non-empty at all call sites). -/
def pyReplace (pat rep : Str) (s : Str) : Str :=
  pyReplaceFuel pat rep s.length s

/- ### Kernel-computable rational arithmetic

`Rat.add`, `Rat.mul`, `Rat.inv` are `@[irreducible]` in Batteries, so terms
built from them cannot be evaluated by `decide`.  The wrappers below compute
the same values through `Rat.divInt` and are identified with the field
operations by the bridge lemmas that follow. -/

def qofNat (n : Nat) : Rat := Rat.divInt n 1

def qadd (a b : Rat) : Rat :=
  Rat.divInt (a.num * b.den + b.num * a.den) (a.den * b.den)

def qmul (a b : Rat) : Rat := Rat.divInt (a.num * b.num) (a.den * b.den)

def qdiv (a b : Rat) : Rat := Rat.divInt (a.num * b.den) (b.num * a.den)

/-- Python `min(a, b)` (returns the first argument on ties, like Python). -/
def qmin (a b : Rat) : Rat := if a ≤ b then a else b

/-- Python `max(a, b)` (returns the second argument on ties; for the score
computations only the value matters). -/
def qmax (a b : Rat) : Rat := if a ≤ b then b else a

theorem qofNat_eq (n : Nat) : qofNat n = (n : ℚ) := by
  simp [qofNat, Rat.divInt_eq_div]

theorem qadd_eq (a b : Rat) : qadd a b = a + b := by
  rw [qadd, Rat.divInt_eq_div]
  have ha : ((a.den : ℚ)) ≠ 0 := by positivity
  have hb : ((b.den : ℚ)) ≠ 0 := by positivity
  conv_rhs => rw [← Rat.num_div_den a, ← Rat.num_div_den b]
  push_cast
  rw [div_add_div _ _ ha hb]
  congr 1
  ring

theorem qmul_eq (a b : Rat) : qmul a b = a * b := by
  rw [qmul, Rat.divInt_eq_div]
  have ha : ((a.den : ℚ)) ≠ 0 := by positivity
  have hb : ((b.den : ℚ)) ≠ 0 := by positivity
  conv_rhs => rw [← Rat.num_div_den a, ← Rat.num_div_den b]
  push_cast
  rw [div_mul_div_comm]

theorem qdiv_eq (a b : Rat) : qdiv a b = a / b := by
  rw [qdiv, Rat.divInt_eq_div]
  by_cases hb : b = 0
  · subst hb; simp
  · have hbn : ((b.num : ℚ)) ≠ 0 := by
      exact_mod_cast Rat.num_ne_zero.mpr hb
    have ha : ((a.den : ℚ)) ≠ 0 := by positivity
    have hbd : ((b.den : ℚ)) ≠ 0 := by positivity
    conv_rhs => rw [← Rat.num_div_den a, ← Rat.num_div_den b]
    push_cast
    rw [div_div_div_eq]
    congr 1
    ring

theorem qmin_eq (a b : Rat) : qmin a b = min a b := by
  rw [qmin, min_def]

theorem qmax_eq (a b : Rat) : qmax a b = max a b := by
  rw [qmax, max_def]

/-- Round-half-to-even to an integer, on the exact rational value: the model
of Python `round` (ties to even). -/
def rndHalfEven (q : Rat) : Int :=
  let f : Int := q.num.fdiv q.den
  let r2 : Int := 2 * (q.num - f * q.den)
  if r2 < q.den then f else if (q.den : Int) < r2 then f + 1
  else if f % 2 = 0 then f else f + 1

/-- Python `round(x, 1)` on the exact rational value. -/
def qround1 (q : Rat) : Rat :=
  Rat.divInt (rndHalfEven (qmul q (qofNat 10))) 10

/- ### difflib.SequenceMatcher, as used by `calculate_skill_match_score`

`difflib.SequenceMatcher(None, a, b).ratio()` with no junk predicate.
The chain of matching blocks is computed exactly as in CPython difflib:
`__chain_b` builds `b2j` (with the autojunk popularity filter when
`len(b) >= 200`), `find_longest_match` runs the `j2len` dynamic program and
then widens the winning block, and `get_matching_blocks` recursively splits
around each winning block; `ratio` is `2 * M / (len(a) + len(b))`. -/

/-- Index map of `b`: for each character, the ascending list of its positions
(difflib `b2j` before the popularity filter). -/
def b2jBase (b : Str) : Char → List Nat :=
  b.enum.foldl (fun m p => fun x => if x = p.2 then m x ++ [p.1] else m x)
    (fun _ => [])

/-- difflib `__chain_b` with `autojunk=True` and no junk predicate: when
`len(b) >= 200`, characters occurring more than `len(b) // 100 + 1` times
are dropped from the index map. -/
def b2jMap (b : Str) : Char → List Nat :=
  let m := b2jBase b
  if 200 ≤ b.length then
    let ntest := b.length / 100 + 1
    fun c => if ntest < (m c).length then [] else m c
  else m

/-- Running state of the `find_longest_match` dynamic program. -/
structure FlmSt where
  bi : Nat
  bj : Nat
  bs : Nat
  j2 : Nat → Nat

/-- The `j2len` loop of `find_longest_match`: for each `i` in
`range(alo, ahi)` and each index `j` of `a[i]` in `b` with
`blo <= j < bhi`, extend the run ending at `(i-1, j-1)`; a strictly longer
run replaces the recorded best block. -/
def flmPhase1 (a : Str) (m : Char → List Nat) (alo ahi blo bhi : Nat) :
    Nat × Nat × Nat :=
  let fin := (List.range' alo (ahi - alo)).foldl
    (fun (st : FlmSt) (i : Nat) =>
      let js := (m (a.getD i ' ')).filter
        (fun j => decide (blo ≤ j) && decide (j < bhi))
      js.foldl
        (fun (st2 : FlmSt) (j : Nat) =>
          let k := (if j = 0 then 0 else st.j2 (j - 1)) + 1
          let nm := fun x => if x = j then k else st2.j2 x
          if st2.bs < k then ⟨i + 1 - k, j + 1 - k, k, nm⟩
          else ⟨st2.bi, st2.bj, st2.bs, nm⟩)
        ⟨st.bi, st.bj, st.bs, fun _ => 0⟩)
    ⟨alo, blo, 0, fun _ => 0⟩
  (fin.bi, fin.bj, fin.bs)

/-- The leftward widening loop of `find_longest_match` (the non-junk pass;
the junk passes are no-ops because the matcher is built with `isjunk=None`).
Fuel `bi` suffices since `bi` decreases by one per step. -/
def flmExtendLeft (a b : Str) (alo blo : Nat) :
    Nat → Nat × Nat × Nat → Nat × Nat × Nat
  | 0, st => st
  | fuel + 1, (bi, bj, bs) =>
    if alo < bi ∧ blo < bj ∧ a.getD (bi - 1) ' ' = b.getD (bj - 1) ' ' then
      flmExtendLeft a b alo blo fuel (bi - 1, bj - 1, bs + 1)
    else (bi, bj, bs)

/-- The rightward widening loop of `find_longest_match`.  Fuel `ahi`
suffices since `bi + bs` grows by one per step while staying below `ahi`. -/
def flmExtendRight (a b : Str) (ahi bhi : Nat) :
    Nat → Nat × Nat × Nat → Nat × Nat × Nat
  | 0, st => st
  | fuel + 1, (bi, bj, bs) =>
    if bi + bs < ahi ∧ bj + bs < bhi ∧
        a.getD (bi + bs) ' ' = b.getD (bj + bs) ' ' then
      flmExtendRight a b ahi bhi fuel (bi, bj, bs + 1)
    else (bi, bj, bs)

/-- difflib `find_longest_match` on `a[alo:ahi] × b[blo:bhi]`, returning
`(i, j, size)`. -/
def findLongestMatch (a b : Str) (m : Char → List Nat)
    (alo ahi blo bhi : Nat) : Nat × Nat × Nat :=
  let p1 := flmPhase1 a m alo ahi blo bhi
  let p2 := flmExtendLeft a b alo blo p1.1 p1
  flmExtendRight a b ahi bhi ahi p2

/-- Total size of difflib matching blocks (the `M` of `ratio`): the
queue-based splitting of `get_matching_blocks`, realized recursively.  The
range conjuncts added to the two recursion guards always hold for
`find_longest_match` results; they make the sum of the interval widths
decrease strictly, so the initial fuel `(ahi - alo) + (bhi - blo) + 1` is
never exhausted. -/
def matchesTotal (a b : Str) (m : Char → List Nat) :
    Nat → Nat → Nat → Nat → Nat → Nat
  | 0, _, _, _, _ => 0
  | fuel + 1, alo, ahi, blo, bhi =>
    let r := findLongestMatch a b m alo ahi blo bhi
    let i := r.1
    let j := r.2.1
    let k := r.2.2
    if k = 0 then 0
    else
      k +
        ((if alo < i ∧ blo < j ∧ i + k ≤ ahi ∧ j + k ≤ bhi then
            matchesTotal a b m fuel alo i blo j
          else 0) +
         (if i + k < ahi ∧ j + k < bhi ∧ alo ≤ i ∧ blo ≤ j then
            matchesTotal a b m fuel (i + k) ahi (j + k) bhi
          else 0))

/-- difflib `SequenceMatcher(None, a, b).ratio()` as an exact rational:
`2 * M / (len(a) + len(b))`, and `1.0` when both sequences are empty. -/
def seqRatioQ (a b : Str) : Rat :=
  let total := a.length + b.length
  if total = 0 then qofNat 1
  else
    qdiv (qofNat (2 * matchesTotal a b (b2jMap b) (total + 1) 0 a.length 0 b.length))
      (qofNat total)

example : seqRatioQ (cs "java") (cs "javax") = Rat.divInt 8 9 := by decide
example : seqRatioQ (cs "axb") (cs "ab") = Rat.divInt 4 5 := by decide
example : seqRatioQ (cs "python") (cs "python") = qofNat 1 := by decide
example : seqRatioQ (cs "sql") (cs "mysql") = Rat.divInt 3 4 := by decide

/- ### calculate_skill_match_score (src/app.py lines 943-1027) -/

/-- The `skill_variations` table (src/app.py lines 984-993), in source
order. -/
def skillVariations : List (Str × List Str) :=
  [(cs "python", [cs "py", cs "python3", cs "python programming"]),
   (cs "javascript",
    [cs "js", cs "node.js", cs "nodejs", cs "react", cs "angular", cs "vue"]),
   (cs "java", [cs "java programming", cs "core java", cs "advanced java"]),
   (cs "sql", [cs "mysql", cs "postgresql", cs "database", cs "rdbms"]),
   (cs "machine learning",
    [cs "ml", cs "ai", cs "artificial intelligence", cs "deep learning"]),
   (cs "data analysis", [cs "data science", cs "analytics", cs "statistics"]),
   (cs "web development", [cs "html", cs "css", cs "frontend", cs "backend"]),
   (cs "communication", [cs "english", cs "presentation", cs "speaking"])]

/-- The synonym-table pass over one `(req_skill, user_skill)` pair: raises
the running best to `0.95` when one side is a table key and the other a
listed variant (src/app.py lines 995-998). -/
def synPass (req u : Str) (best : Rat) : Rat :=
  skillVariations.foldl
    (fun acc p =>
      if (req = p.1 ∧ u ∈ p.2) ∨ (u = p.1 ∧ req ∈ p.2) then
        qmax acc (Rat.divInt 19 20)
      else acc)
    best

/-- The inner loop of `calculate_skill_match_score` computing
`best_match_score` for one required skill (src/app.py lines 966-998):
exact match assigns `1.0` and breaks; otherwise a similarity ratio strictly
above `0.8` contributes the ratio, else substring containment in either
direction contributes `0.9`; the synonym table contributes `0.95`
unconditionally of the ratio branch. -/
def bestMatchGo (req : Str) : List Str → Rat → Rat
  | [], best => best
  | u :: rest, best =>
    if u = req then qofNat 1
    else
      let sim := seqRatioQ u req
      let best1 :=
        if Rat.divInt 4 5 < sim then qmax best sim
        else if pyContains u req || pyContains req u then
          qmax best (Rat.divInt 9 10)
        else best
      bestMatchGo req rest (synPass req u best1)

/-- The two accepted shapes of the `user_skills_string` argument: a list of
skill strings or a single comma-separated string (src/app.py lines
951-955). -/
inductive SkillsInput where
  | ofList : List Str → SkillsInput
  | ofString : Str → SkillsInput
deriving DecidableEq

/-- Python truthiness of the `user_skills_string` argument (empty list and
empty string are falsy). -/
def SkillsInput.truthy : SkillsInput → Bool
  | .ofList l => !l.isEmpty
  | .ofString s => !s.isEmpty

/-- Normalization of the user skills (src/app.py lines 952-955): keep
non-blank entries, strip and lowercase them; a string input is first split
on commas. -/
def parseUserSkills : SkillsInput → List Str
  | .ofList l =>
    (l.filter (fun s => !s.isEmpty && !(pyStrip s).isEmpty)).map
      (fun s => pyLower (pyStrip s))
  | .ofString s =>
    ((pySplit ',' s).filter (fun t => !(pyStrip t).isEmpty)).map
      (fun t => pyLower (pyStrip t))

/-- The profile fields read by the bonus computation and by
`sort_recommendations_by_match` (the `user` dict). -/
structure UserRec where
  skills : SkillsInput
  qualification : Option Str
  area_of_interest : Option Str
  prior_internship : Option Str
deriving DecidableEq

/-- Keywords granting the +5 qualification bonus (src/app.py line 1011). -/
def eduKeywords : List Str :=
  [cs "engineering", cs "btech", cs "computer", cs "it", cs "technology"]

/-- Sectors granting the +3 area-of-interest bonus (src/app.py line
1017). -/
def jobSectors : List Str :=
  [cs "technology", cs "finance", cs "healthcare", cs "engineering",
   cs "management"]

/-- The profile bonus points (src/app.py lines 1006-1023): +5 for an
engineering/IT qualification keyword, +3 for a listed sector in the area of
interest, +7 for `prior_internship == "yes"`. -/
def bonusPoints : Option UserRec → Nat
  | none => 0
  | some u =>
    let b1 :=
      match u.qualification with
      | some q =>
        if !q.isEmpty && eduKeywords.any (fun kw => pyContains (pyLower q) kw)
        then 5 else 0
      | none => 0
    let b2 :=
      match u.area_of_interest with
      | some i =>
        if !i.isEmpty && jobSectors.any (fun sec => pyContains (pyLower i) sec)
        then 3 else 0
      | none => 0
    let b3 := if u.prior_internship = some (cs "yes") then 7 else 0
    b1 + b2 + b3

/-- `calculate_skill_match_score` (src/app.py lines 943-1027): average of
the per-required-skill best weights, times 100, plus profile bonuses,
clamped to 100, rounded to one decimal. -/
def calculate_skill_match_score (user_skills_string : SkillsInput)
    (required_skills_list : List Str) (user_profile : Option UserRec) : Rat :=
  if !user_skills_string.truthy || required_skills_list.isEmpty then qofNat 0
  else
    let user_skills := parseUserSkills user_skills_string
    let required_skills :=
      (required_skills_list.filter (fun s => !(pyStrip s).isEmpty)).map
        (fun s => pyLower (pyStrip s))
    if user_skills.isEmpty || required_skills.isEmpty then qofNat 0
    else
      let match_score :=
        required_skills.foldl
          (fun acc req => qadd acc (bestMatchGo req user_skills (qofNat 0)))
          (qofNat 0)
      let percentage :=
        qmul (qdiv match_score (qofNat required_skills.length)) (qofNat 100)
      let final_percentage :=
        qmin (qofNat 100)
          (qadd percentage (qofNat (bonusPoints user_profile)))
      qround1 final_percentage

example :
    calculate_skill_match_score (.ofList [cs "python"]) [cs "python"] none =
      qofNat 100 := by decide
example :
    calculate_skill_match_score (.ofString (cs "py")) [cs "python"] none =
      qofNat 95 := by decide
example :
    calculate_skill_match_score (.ofList []) [cs "python"] none =
      qofNat 0 := by decide
example :
    calculate_skill_match_score (.ofList [cs "python"]) [] none =
      qofNat 0 := by decide

/- ### sort_recommendations_by_match (src/app.py lines 1029-1088) -/

/-- One opportunity record, with the fields read by the ranking code (dict
keys `company`, `type`, `skills`; the remaining keys are payload carried
through unchanged and folded into `company` for identification). -/
structure Rec where
  company : Str
  rtype : Option Str
  skills : List Str
deriving DecidableEq

/-- A recommendation after the ranking code stored `skill_match_score` on
it. -/
structure ScoredRec where
  cand : Rec
  skill_match_score : Rat
deriving DecidableEq

/-- `rec.get("type") == "government"`. -/
def isGovRec (r : Rec) : Bool := r.rtype = some (cs "government")

/-- Stable insertion into a descending-sorted list: the inserted element
goes before every element of equal key, after every strictly greater one. -/
def insertDesc (key : ScoredRec → Rat) (x : ScoredRec) :
    List ScoredRec → List ScoredRec
  | [] => [x]
  | y :: ys =>
    if key x < key y then y :: insertDesc key x ys else x :: y :: ys

/-- Python `list.sort(key=..., reverse=True)`: the stable descending sort.
(Stable sorting is unique, so the insertion-sort formulation coincides with
Python Timsort.) -/
def pySortDesc (key : ScoredRec → Rat) (l : List ScoredRec) :
    List ScoredRec :=
  l.foldr (insertDesc key) []

/-- The base SkillMatcher score of one candidate:
`calculate_skill_match_score(user_skills, rec.get("skills", []), user)`
with `user_skills = user.get("skills", "") if user else ""`
(src/app.py lines 1034, 1041-1045). -/
def baseScore (user : Option UserRec) (r : Rec) : Rat :=
  calculate_skill_match_score
    (match user with
     | some u => u.skills
     | none => .ofString [])
    r.skills user

/-- Scoring of one candidate in the partition loop (src/app.py lines
1040-1056): government candidates get `min(100, score + 10)` stored as
their `skill_match_score`, others get the plain score. -/
def scoreRec (user : Option UserRec) (r : Rec) : ScoredRec :=
  let ms := baseScore user r
  if isGovRec r then ⟨r, qmin (qofNat 100) (qadd ms (qofNat 10))⟩
  else ⟨r, ms⟩

/-- The sorted government bucket (src/app.py lines 1036-1059).  The code
sorts `(score, rec)` pairs by the score component; since the stored
`skill_match_score` equals that component, sorting the scored records by
`skill_match_score` is the same ordering. -/
def govBucket (user : Option UserRec) (recs : List Rec) : List ScoredRec :=
  pySortDesc (fun s => s.skill_match_score)
    ((recs.map (scoreRec user)).filter (fun s => isGovRec s.cand))

/-- The sorted private bucket (src/app.py lines 1036-1060). -/
def privBucket (user : Option UserRec) (recs : List Rec) : List ScoredRec :=
  pySortDesc (fun s => s.skill_match_score)
    ((recs.map (scoreRec user)).filter (fun s => !isGovRec s.cand))

/-- First assembly loop (src/app.py lines 1066-1070): append government
candidates while `gov_count < 3`; returns the list and final
`gov_count`. -/
def addGovLoop : List ScoredRec → List ScoredRec → Nat →
    List ScoredRec × Nat
  | [], top, c => (top, c)
  | r :: rest, top, c =>
    if c < 3 then addGovLoop rest (top ++ [r]) (c + 1)
    else addGovLoop rest top c

/-- Second assembly loop (src/app.py lines 1073-1077): append private
candidates while the total is below 5 and `private_count < 3`. -/
def addPrivLoop : List ScoredRec → List ScoredRec → Nat → List ScoredRec
  | [], top, _ => top
  | r :: rest, top, pc =>
    if top.length < 5 ∧ pc < 3 then addPrivLoop rest (top ++ [r]) (pc + 1)
    else addPrivLoop rest top pc

/-- Third assembly loop (src/app.py lines 1080-1083): append leftover
government candidates while the total is below 5. -/
def fillGovLoop : List ScoredRec → List ScoredRec → List ScoredRec
  | [], top => top
  | r :: rest, top =>
    if top.length < 5 then fillGovLoop rest (top ++ [r])
    else fillGovLoop rest top

/-- The quota assembly stage of `sort_recommendations_by_match`
(src/app.py lines 1063-1083): the `top_recommendations` list right before
the final sort. -/
def quotaAssembly (recommendations : List Rec) (user : Option UserRec) :
    List ScoredRec :=
  let gov := govBucket user recommendations
  let priv := privBucket user recommendations
  let p1 := addGovLoop gov [] 0
  let top2 := addPrivLoop priv p1.1 0
  if top2.length < 5 ∧ p1.2 < gov.length then
    fillGovLoop (gov.drop p1.2) top2
  else top2

/-- `sort_recommendations_by_match` (src/app.py lines 1029-1088): quota
assembly, final stable sort by `skill_match_score` descending, `[:5]`. -/
def sort_recommendations_by_match (recommendations : List Rec)
    (user : Option UserRec) : List ScoredRec :=
  (pySortDesc (fun s => s.skill_match_score)
    (quotaAssembly recommendations user)).take 5

example :
    (sort_recommendations_by_match
      [⟨cs "p1", some (cs "private-based"), []⟩,
       ⟨cs "p2", some (cs "private-based"), []⟩,
       ⟨cs "p3", some (cs "private-based"), []⟩,
       ⟨cs "p4", some (cs "private-based"), []⟩,
       ⟨cs "p5", some (cs "private-based"), []⟩,
       ⟨cs "p6", some (cs "private-based"), []⟩] none).length = 3 := by
  decide

example :
    (sort_recommendations_by_match
      [⟨cs "p1", some (cs "private-based"), []⟩,
       ⟨cs "g1", some (cs "government"), []⟩] none) =
      [⟨⟨cs "g1", some (cs "government"), []⟩, qofNat 10⟩,
       ⟨⟨cs "p1", some (cs "private-based"), []⟩, qofNat 0⟩] := by decide

/- ### get_gemini_model (src/app.py lines 76-114) -/

/-- The two client objects the lazy initializer can construct. -/
inductive GeminiModel where
  | flash
  | pro
deriving DecidableEq

/-- The module-level mutable pair `_gemini_model` / `_gemini_model_error`
(src/app.py lines 76-77). -/
structure GeminiState where
  model : Option GeminiModel
  error : Option Str
deriving DecidableEq

/-- The module-level initial state: both variables `None`. -/
def geminiInit : GeminiState := ⟨none, none⟩

/-- The external conditions one call to `get_gemini_model` can observe:
the `GEMINI_API_KEY` environment variable and whether each client
construction succeeds. -/
structure GeminiEnv where
  apiKey : Option Str
  flashOk : Bool
  proOk : Bool
deriving DecidableEq

/-- Python truthiness of `os.getenv(...)` (absent and empty are falsy). -/
def keyTruthy : Option Str → Bool
  | none => false
  | some s => !s.isEmpty

/-- `get_gemini_model` (src/app.py lines 81-114) as a state transformer:
returns the new state of the module-level pair and the returned value.
The double-check inside the lock re-tests the very condition tested at
entry; in this sequential model the state is unchanged between the two
tests, so the inner check is subsumed by the outer one.  The Python error
strings interpolate the exception text; the model keeps their fixed
prefixes. -/
def get_gemini_model (env : GeminiEnv) (s : GeminiState) :
    GeminiState × Option GeminiModel :=
  if s.model.isSome || s.error.isSome then (s, s.model)
  else if !keyTruthy env.apiKey then
    ({ s with error := some (cs "Missing GEMINI_API_KEY") }, none)
  else if env.flashOk then
    ({ model := some .flash, error := none }, some .flash)
  else if env.proOk then
    ({ model := some .pro, error := none }, some .pro)
  else ({ model := none, error := some (cs "Gemini init failed") }, none)

/-- A process lifetime: a sequence of calls, each under its own observed
environment, threading the module state. -/
def runGemini : List GeminiEnv → GeminiState → GeminiState
  | [], s => s
  | e :: es, s => runGemini es (get_gemini_model e s).1

/- ### Conversation history and context (src/app.py lines 564-597,
684-695) -/

/-- One conversation turn: the user/bot dict appended to the session
key `chat_history`. -/
structure Turn where
  user : Str
  bot : Str
deriving DecidableEq

/-- The history update of `get_gemini_response` (src/app.py lines 684-695):
append the turn, then keep only the last 5 entries when the length exceeds
5. -/
def appendTurn (history : List Turn) (t : Turn) : List Turn :=
  let h := history ++ [t]
  if 5 < h.length then h.drop (h.length - 5) else h

/-- The topic categories and keyword lists of `build_conversation_context`
(src/app.py lines 578-587), in the order of the if/elif chain. -/
def topicChecks : List (Str × List Str) :=
  [(cs "application_process", [cs "apply", cs "application", cs "process"]),
   (cs "eligibility", [cs "eligible", cs "eligibility", cs "criteria"]),
   (cs "documents", [cs "document", cs "documents", cs "papers"]),
   (cs "benefits", [cs "stipend", cs "benefit", cs "salary", cs "money"]),
   (cs "support", [cs "help", cs "support", cs "contact"])]

/-- The topic recorded for one turn: the first category whose keyword list
has a substring hit on the lowered user message, if any. -/
def topicOf (userMsgLower : Str) : Option Str :=
  (topicChecks.find? (fun p => p.2.any (fun w => pyContains userMsgLower w))).map
    (fun p => p.1)

/-- Decimal rendering of the 1-based index used in the history block. -/
def natStr (n : Nat) : Str := (toString n).toList

/-- Model of CPython `list(set(xs))`: the distinct elements.  CPython
iterates a set in a hash-dependent order; the model fixes the
first-occurrence order (every property proved below is order-independent).
-/
def pyUniqueModel (l : List Str) : List Str := l.eraseDups

/-- `build_conversation_context` (src/app.py lines 564-597): the prompt
block summarizing the last three turns, with bot replies truncated to 150
characters and a topic-continuity footer. -/
def build_conversation_context (chat_history : List Turn) : Str :=
  if chat_history.isEmpty then
    cs "CONVERSATION CONTEXT: 🆕 First interaction - provide comprehensive introduction and assistance."
  else
    let last3 := chat_history.drop (chat_history.length - 3)
    let topics :=
      last3.foldl
        (fun acc c =>
          match topicOf (pyLower c.user) with
          | some t => acc ++ [t]
          | none => acc)
        []
    let body :=
      last3.enum.foldl
        (fun acc p =>
          acc ++ natStr (p.1 + 1) ++ cs ". 👤 User asked: " ++ p.2.user ++
            cs "\n   🤖 I responded about: " ++ p.2.bot.take 150 ++ cs "...\n")
        (cs "CONVERSATION HISTORY & CONTEXT:\n")
    if !topics.isEmpty then
      body ++ cs "\n📋 TOPICS COVERED: " ++
        pyJoin (cs ", ") (pyUniqueModel topics) ++
        cs "\n💡 GUIDANCE: Build upon previous discussion, avoid repetition, provide next logical steps"
    else body

/- ### Fallback chat responder (src/app.py lines 711-941) -/

/-- Templates of `get_enhanced_general_response` and
`get_fallback_response`, extracted verbatim from src/app.py (the
`{user_name}` interpolation becomes the `name` parameter; single-quoted
Python templates carry literal backslash-n sequences, triple-quoted ones
real line breaks). -/
def techResp (name : Str) : Str :=
  cs "💻 **Tech Insights for " ++
    name ++
    cs ":**\n\nI can help with technology topics! While my primary expertise is PM Internship Scheme, I have general knowledge about:\n\n🔧 **Programming & Development:**\n• Popular languages: Python, JavaScript, Java, C++\n• Web development, mobile apps, AI/ML basics\n• Career paths in tech industry\n\n🎯 **Career Connection:**\n• PM Internship has amazing IT sector opportunities\n• Gain hands-on experience with latest technologies\n• Build skills while earning ₹5,000/month\n\n💡 **Want to know more about tech internships in PM Scheme?**"

def eduResp (name : Str) : Str :=
  cs "🎓 **Education Guidance for " ++
    name ++
    cs ":**\n\nEducation is key to success! Here\x27s what I can share:\n\n📚 **Learning Paths:**\n• Continuous learning is essential in today\x27s world\n• Practical experience complements theoretical knowledge\n• Skills matter more than just degrees\n\n🌟 **PM Internship Connection:**\n• Perfect for recent graduates (any field!)\n• Learn while earning in real work environment\n• Get mentorship from industry professionals\n• Build both technical and soft skills\n\n🎯 **Ready to apply your education practically?**"

def careerResp (name : Str) : Str :=
  cs "🚀 **Career Guidance for " ++
    name ++
    cs ":**\n\nEvery great career starts with the right opportunities!\n\n💼 **Career Building Tips:**\n• Gain practical experience early\n• Build a strong professional network\n• Develop both technical and soft skills\n• Stay updated with industry trends\n\n🏆 **PM Internship Advantage:**\n• 12 months of real work experience\n• Government certification\n• Industry mentorship and guidance\n• ₹66,000+ total value package\n• Direct pathway to permanent employment\n\n✨ **Transform your career potential - let\x27s explore internship opportunities!**"

def lifeResp (name : Str) : Str :=
  cs "🌟 **Life Wisdom for " ++
    name ++
    cs ":**\n\nLife is full of opportunities waiting to be seized!\n\n💫 **Keys to Success:**\n• Take action on opportunities when they come\n• Continuous learning and skill development\n• Building meaningful relationships and networks\n• Perseverance through challenges\n\n🎯 **Your Next Big Opportunity:**\n• PM Internship Scheme is designed for young achievers like you\n• Gain valuable experience while earning\n• Build your future with government support\n• Create a foundation for lifelong success\n\n💪 **Ready to take the next step in your journey?**"

def healthResp (name : Str) : Str :=
  cs "💪 **Wellness Tips for " ++
    name ++
    cs ":**\n\nYour health and well-being are incredibly important!\n\n🏃 **General Wellness:**\n• Regular exercise and balanced nutrition\n• Adequate sleep and stress management\n• Mental health is just as important as physical health\n• Work-life balance is crucial\n\n🎯 **PM Internship Benefits:**\n• Comprehensive health insurance coverage\n• Structured work environment promotes good habits\n• Professional development reduces career stress\n• Financial security supports overall well-being\n\n💡 **Build a healthy career foundation with PM Internship!**"

def generalKnowResp (name : Str) : Str :=
  cs "🤖 **Hi " ++
    name ++
    cs "! I\x27m PRIA, your knowledgeable assistant.**\n\nI can help with a wide range of topics! While I\x27m specialized in PM Internship Scheme, I also have knowledge about:\n\n🧠 **General Topics I Can Discuss:**\n• Career guidance and professional development\n• Education and learning pathways\n• Technology and programming basics\n• Life advice and motivation\n• Health and wellness tips\n\n🎯 **My Specialty - PM Internship Scheme:**\n• Complete application guidance\n• Eligibility and requirements\n• Benefits and opportunities\n• Success stories and tips\n\n💬 **Ask me anything! Examples:**\n• \"Tell me about career opportunities\"\n• \"What should I study for tech?\"\n• \"How can I improve my life?\"\n• \"What are the PM Internship benefits?\"\n\n🌟 **I\x27m here to help you succeed in every way possible!**"

def greetingsComplete : List (Str → Str) :=
  [fun name => cs "👋 Hello " ++
    name ++
    cs "! Great to see you back! Since your profile is complete, I can provide targeted internship guidance. What specific area would you like to explore?",
   fun name => cs "🌟 Hi " ++
    name ++
    cs "! Your profile looks excellent! I\x27m PRIA, ready to help you find the perfect PM Internship match. What\x27s on your mind today?",
   fun name => cs "✨ Namaste " ++
    name ++
    cs "! With your complete profile, we can dive right into finding amazing internship opportunities. How can I assist you today?"]

def greetingsIncomplete : List (Str → Str) :=
  [fun name => cs "👋 Hello " ++
    name ++
    cs "! I\x27m PRIA, your PM Internship AI Assistant. I notice your profile needs completion - shall we work on that for better internship matches?",
   fun name => cs "🌟 Hi " ++
    name ++
    cs "! Welcome back! Completing your profile will unlock personalized internship recommendations. Want to finish it now?",
   fun name => cs "✨ Namaste " ++
    name ++
    cs "! I\x27m here to help with your PM Internship journey. Let\x27s complete your profile first for the best experience!"]

def greetingsNoProfile : List (Str → Str) :=
  [fun name => cs "👋 Hello " ++
    name ++
    cs "! I\x27m PRIA, your personal PM Internship AI Assistant. Ready to explore amazing opportunities worth ₹66,000+ per year?",
   fun name => cs "🌟 Hi " ++
    name ++
    cs "! Welcome to your PM Internship journey! I\x27m here to make this life-changing opportunity accessible for you.",
   fun name => cs "✨ Namaste " ++
    name ++
    cs "! I\x27m PRIA, excited to guide you through the PM Internship Scheme. Let\x27s start building your bright future!"]

def applyResp (name : Str) : Str :=
  cs "🎯 **Application Process for " ++
    name ++
    cs ":**\\n\\n1️⃣ **Verify Eligibility** - Age 21-24, Indian citizen, income <₹8L\\n2️⃣ **Register** - Create account on official portal\\n3️⃣ **Profile Setup** - Complete your detailed profile\\n4️⃣ **Document Upload** - Aadhaar, certificates, income proof\\n5️⃣ **Browse & Apply** - Find matching internships\\n6️⃣ **Track Status** - Monitor your applications\\n\\n� **Pro Tip:** Complete your profile first for better matches!\\n\\n🔗 Ready to start? Visit the Apply section now!"

def eligResp (name : Str) : Str :=
  cs "✅ **Eligibility Checklist for " ++
    name ++
    cs ":**\\n\\n� **Personal:**\\n• Age: 21-24 years\\n• Indian citizenship with valid documents\\n\\n🎓 **Educational:**\\n• Graduate/Diploma in any field\\n• Not in full-time education during internship\\n\\n💼 **Professional:**\\n• Not in full-time employment\\n• Open to 12-month commitment\\n\\n� **Financial:**\\n• Family income < ₹8 lakhs annually\\n• No immediate family in govt service\\n\\n🔍 **Quick Check:** Do you meet these criteria? I can help you with next steps!"

def stipendResp (name : Str) : Str :=
  cs "💰 **Amazing Benefits Awaiting " ++
    name ++
    cs ":**\n\n💵 **Monthly Stipend:** ₹5,000\n   • ₹4,500 from Central Government\n   • ₹500 from host organization\n\n🎁 **One-time Grant:** ₹6,000\n   • For learning materials & skill development\n\n🏥 **Insurance Coverage:**\n   • Health insurance\n   • Accident coverage\n\n🏆 **Additional Perks:**\n   • Official GoI certificate\n   • Industry mentorship\n   • Skill development workshops\n   • Career guidance\n   • Professional networking\n\n💡 **Total Value:** ₹66,000+ per year!"

def docsResp (name : Str) : Str :=
  cs "📄 **Required Documents for " ++
    name ++
    cs ":**\\n\\n� **Identity:**\\n• Aadhaar Card (mandatory)\\n• PAN Card (if available)\\n\\n🎓 **Educational:**\\n• 10th & 12th certificates\\n• Graduation/Diploma certificate\\n• Mark sheets\\n\\n💰 **Income Proof:**\\n• Family income certificate\\n• Income tax returns (if applicable)\\n\\n🏦 **Banking:**\\n• Bank account details\\n• Cancelled cheque\\n\\n📸 **Others:**\\n• Passport size photograph\\n• Caste certificate (if applicable)\\n\\n💡 **Tip:** Keep all documents in PDF format, max 2MB each!"

def supportResp (name : Str) : Str :=
  cs "📞 **Get Support, " ++
    name ++
    cs ":**\n\n📧 **Email Support:**\n• contact-pminternship@gov.in\n• Response within 24-48 hours\n\n☎️ **Phone Helpline:**\n• 011-12345678\n• Monday-Friday: 10 AM - 6 PM\n• Instant assistance\n\n💬 **Live Chat:**\n• Available on portal 24/7\n• Quick query resolution\n\n🌐 **Portal Help:**\n• Comprehensive FAQ section\n• Step-by-step guides\n• Video tutorials\n\n❓ **Need immediate help? I\x27m here to assist you right now!**"

def fallbackDefaultResp (name : Str) : Str :=
  cs "🤖 **Hi " ++
    name ++
    cs "! I\x27m PRIA, your PM Internship Assistant.**\\n\\n🎯 **I can help you with:**\\n\\n✨ **Getting Started:**\\n• Eligibility criteria & requirements\\n• Application process & steps\\n• Document preparation\\n\\n� **Benefits & Details:**\\n• Stipend & financial benefits\\n• Available sectors & companies\\n• Duration & timeline\\n\\n🔍 **Application Support:**\\n• Status tracking\\n• Interview preparation\\n• Technical assistance\\n\\n� **Contact & Help:**\\n• Support channels\\n• FAQ resolution\\n\\n💬 **Just ask me anything!** For example:\\n\x27Am I eligible?\x27 or \x27How to apply?\x27 or \x27What documents needed?\x27\\n\\n🌟 **Ready to start your internship journey?**"
/-- The keyword lists of `get_enhanced_general_response` (src/app.py lines
716, 734, 753, 774, 794), in branch order. -/
def techWords : List Str :=
  [cs "technology", cs "tech", cs "programming", cs "coding", cs "software",
   cs "computer", cs "ai", cs "machine learning", cs "data science"]

def eduWords : List Str :=
  [cs "education", cs "study", cs "learn", cs "course", cs "degree",
   cs "college", cs "university", cs "school"]

def careerWords : List Str :=
  [cs "career", cs "job", cs "work", cs "employment", cs "profession",
   cs "future", cs "growth"]

def lifeWords : List Str :=
  [cs "life", cs "success", cs "motivation", cs "inspire", cs "dream",
   cs "goal", cs "future", cs "advice"]

def healthWords : List Str :=
  [cs "health", cs "fitness", cs "wellness", cs "exercise",
   cs "mental health", cs "stress"]

/-- `get_enhanced_general_response` (src/app.py lines 711-838): first-match
keyword routing over the lowered message. -/
def get_enhanced_general_response (message name : Str) : Str :=
  let ml := pyLower message
  if techWords.any (fun w => pyContains ml w) then techResp name
  else if eduWords.any (fun w => pyContains ml w) then eduResp name
  else if careerWords.any (fun w => pyContains ml w) then careerResp name
  else if lifeWords.any (fun w => pyContains ml w) then lifeResp name
  else if healthWords.any (fun w => pyContains ml w) then healthResp name
  else generalKnowResp name

/-- The keyword lists of `get_fallback_response` (src/app.py lines 851,
879, 883, 887, 911, 915), in branch order. -/
def greetWords : List Str :=
  [cs "hi", cs "hello", cs "hey", cs "namaste", cs "good morning",
   cs "good afternoon", cs "good evening"]

def applyWords : List Str :=
  [cs "apply", cs "application", cs "how to apply", cs "process", cs "steps"]

def eligWords : List Str :=
  [cs "eligible", cs "eligibility", cs "criteria", cs "qualify",
   cs "requirements"]

def stipendWords : List Str :=
  [cs "stipend", cs "benefit", cs "salary", cs "money", cs "payment",
   cs "allowance", cs "grant"]

def docsWords : List Str :=
  [cs "document", cs "documents", cs "papers", cs "certificates",
   cs "upload"]

def supportWords : List Str :=
  [cs "help", cs "support", cs "contact", cs "phone", cs "email",
   cs "assistance"]

/-- The profile fields read by the greeting branch of
`get_fallback_response` (via `get_user_by_id`). -/
structure FbProfile where
  profile_completed : Bool
deriving DecidableEq

/-- External state observed by `get_fallback_response`: the session user
name, the profile-store lookup (absent when the session has no user or the
lookup returns nothing), and the `random.choice` oracle. -/
structure FbEnv where
  sessionUserName : Option Str
  profile : Option FbProfile
  randIdx : Nat
deriving DecidableEq

/-- `get_fallback_response` (src/app.py lines 840-941): general-knowledge
routing first (returned directly unless the response carries one of the two
specialty markers), then keyword-category routing with a personalized
greeting branch; `random.choice` over the three greeting variants is the
oracle index modulo 3. -/
def get_fallback_response (env : FbEnv) (message : Str) : Str :=
  let ml := pyLower message
  let name := env.sessionUserName.getD (cs "there")
  let general := get_enhanced_general_response message name
  if !pyContains general (cs "PM Internship Connection") &&
      !pyContains general (cs "My Specialty") then general
  else if greetWords.any (fun w => pyContains ml w) then
    let gs :=
      match env.profile with
      | some p =>
        if p.profile_completed then greetingsComplete else greetingsIncomplete
      | none => greetingsNoProfile
    (gs.getD (env.randIdx % 3) (fun n => n)) name
  else if applyWords.any (fun w => pyContains ml w) then applyResp name
  else if eligWords.any (fun w => pyContains ml w) then eligResp name
  else if stipendWords.any (fun w => pyContains ml w) then stipendResp name
  else if docsWords.any (fun w => pyContains ml w) then docsResp name
  else if supportWords.any (fun w => pyContains ml w) then supportResp name
  else fallbackDefaultResp name

/-- `clean_response_formatting` (src/app.py lines 704-709). -/
def clean_response_formatting (t : Str) : Str :=
  if pyContains t (cs "\\n") then pyReplace (cs "\\n") (cs "\n") t else t

/-- The reply normalization of the `get_gemini_response` success path
(src/app.py lines 667-682): strip, collapse literal escape sequences to
line breaks, strip each line, and squeeze blank-line runs to one. -/
def normalizeAiText (t : Str) : Str :=
  let c1 := pyReplace (cs "\\\\n") (cs "\n") (pyStrip t)
  let c2 := pyReplace (cs "\\n") (cs "\n") c1
  let lines := pySplit '\n' c2
  let cleaned :=
    lines.foldl
      (fun acc line =>
        if !(pyStrip line).isEmpty then acc ++ [pyStrip line]
        else if !acc.isEmpty ∧ acc.getLast? ≠ some [] then acc ++ [[]]
        else acc)
      ([] : List Str)
  pyJoin (cs "\n") cleaned

/- ### get_gemini_response and the /chat route (src/app.py lines 599-702,
1886-1941) -/

/-- External state observed by one chat request: whether
`get_gemini_model()` yields a model, the outcome of the
`generate_content` call (`Except.error` summarizes any raised exception),
and the session contents. -/
structure ChatEnv where
  modelReady : Bool
  aiResult : Except Str Str
  sessionUserName : Option Str
  sessionProfile : Option FbProfile
  randIdx : Nat
  history : List Turn

/-- The slice of a `ChatEnv` visible to `get_fallback_response`. -/
def ChatEnv.fbEnv (e : ChatEnv) : FbEnv :=
  ⟨e.sessionUserName, e.sessionProfile, e.randIdx⟩

/-- `get_gemini_response` (src/app.py lines 599-702): returns the reply
and the updated session history.  The prompt construction feeds only the
external call (its history block is `build_conversation_context`, studied
separately); the surrounding `try` catches every exception, so a failed
model handle and a raised call both resolve to the cleaned keyword
fallback, leaving the history untouched. -/
def get_gemini_response (env : ChatEnv) (user_message : Str) :
    Str × List Turn :=
  if !env.modelReady then
    (clean_response_formatting (get_fallback_response env.fbEnv user_message),
     env.history)
  else
    match env.aiResult with
    | .error _ =>
      (clean_response_formatting (get_fallback_response env.fbEnv user_message),
       env.history)
    | .ok t =>
      let cleaned := normalizeAiText t
      (cleaned, appendTurn env.history ⟨user_message, cleaned⟩)

/-- The JSON body and status the `/chat` route returns (the `timestamp`
field is omitted: no property reads it). -/
structure ChatResp where
  status : Nat
  success : Bool
  error : Option Str
  reply : Str
  fallback : Option Bool
deriving DecidableEq

/-- The reply of the empty-message validation error (src/app.py line
1895). -/
def noMessageReply : Str :=
  cs "🤔 I didn\x27t receive your message. Please try typing something!"

/-- The reply of the over-length validation error (src/app.py line
1903). -/
def tooLongReply : Str :=
  cs "📝 Please keep your message under 500 characters for better assistance!"

/-- The `/chat` route (src/app.py lines 1886-1941): strip the message,
reject empty and over-500-character messages with 400 validation errors,
otherwise answer via `get_gemini_response`.  The route-level `except`
clause — the only code emitting the used-fallback flag — is reachable only by
exceptions raised outside `get_gemini_response` (which catches all of its
own, lines 699-702), so AI failures never set the flag; the modelled paths
therefore carry `fallback = none`. -/
def chat (env : ChatEnv) (message : Option Str) : ChatResp :=
  let user_message := pyStrip (message.getD [])
  if user_message.isEmpty then
    ⟨400, false, some (cs "No message provided"), noMessageReply, none⟩
  else if 500 < user_message.length then
    ⟨400, false, some (cs "Message too long"), tooLongReply, none⟩
  else ⟨200, true, none, (get_gemini_response env user_message).1, none⟩

/- ### Properties of the stable descending sort -/

theorem insertDesc_perm (key : ScoredRec → Rat) (x : ScoredRec) :
    ∀ l : List ScoredRec, List.Perm (insertDesc key x l) (x :: l) := by
  intro l
  induction l with
  | nil => simp [insertDesc]
  | cons y ys ih =>
    rw [insertDesc]
    split
    · exact ((ih.cons y).trans (List.Perm.swap x y ys))
    · exact List.Perm.refl _

theorem pySortDesc_perm (key : ScoredRec → Rat) (l : List ScoredRec) :
    List.Perm (pySortDesc key l) l := by
  induction l with
  | nil => simp [pySortDesc]
  | cons x xs ih =>
    exact (insertDesc_perm key x (pySortDesc key xs)).trans (ih.cons x)

theorem sorted_insertDesc (key : ScoredRec → Rat) (x : ScoredRec)
    (l : List ScoredRec)
    (hl : l.Pairwise (fun a b => key b ≤ key a)) :
    (insertDesc key x l).Pairwise (fun a b => key b ≤ key a) := by
  induction l with
  | nil => simp [insertDesc]
  | cons y ys ih =>
    rw [insertDesc]
    rcases hl with - | ⟨hy, hys⟩
    split
    · rename_i hxy
      refine List.Pairwise.cons ?_ (ih hys)
      intro z hz
      have hz' := (insertDesc_perm key x ys).mem_iff.mp hz
      rcases List.mem_cons.mp hz' with rfl | hz''
      · exact le_of_lt hxy
      · exact hy z hz''
    · rename_i hxy
      push_neg at hxy
      refine List.Pairwise.cons ?_ (List.Pairwise.cons hy hys)
      intro z hz
      rcases List.mem_cons.mp hz with rfl | hz'
      · exact hxy
      · exact le_trans (hy z hz') hxy

theorem pySortDesc_sorted (key : ScoredRec → Rat) (l : List ScoredRec) :
    (pySortDesc key l).Pairwise (fun a b => key b ≤ key a) := by
  induction l with
  | nil => simp [pySortDesc]
  | cons x xs ih => exact sorted_insertDesc key x _ ih

theorem insertDesc_filter_eq (key : ScoredRec → Rat) (x : ScoredRec)
    (q : Rat) (hx : key x = q) :
    ∀ l : List ScoredRec,
      (insertDesc key x l).filter (fun y => key y = q) =
        x :: l.filter (fun y => key y = q) := by
  intro l
  induction l with
  | nil => simp [insertDesc, hx]
  | cons y ys ih =>
    rw [insertDesc]
    split
    · rename_i hxy
      have hy : ¬ (key y = q) := by
        intro h
        rw [hx, ← h] at hxy
        exact lt_irrefl _ hxy
      simp only [List.filter_cons, hy, decide_eq_true_eq, if_neg,
        decide_eq_false hy, ih]
      simp [hy]
    · simp [List.filter_cons, hx]

theorem insertDesc_filter_ne (key : ScoredRec → Rat) (x : ScoredRec)
    (q : Rat) (hx : ¬ key x = q) :
    ∀ l : List ScoredRec,
      (insertDesc key x l).filter (fun y => key y = q) =
        l.filter (fun y => key y = q) := by
  intro l
  induction l with
  | nil => simp [insertDesc, hx]
  | cons y ys ih =>
    rw [insertDesc]
    split
    · simp only [List.filter_cons, ih]
    · simp [List.filter_cons, hx]

/-- Stability of the final sort: each equal-score class appears in the
sorted output exactly in its input order. -/
theorem pySortDesc_filter (key : ScoredRec → Rat) (q : Rat)
    (l : List ScoredRec) :
    (pySortDesc key l).filter (fun y => key y = q) =
      l.filter (fun y => key y = q) := by
  induction l with
  | nil => rfl
  | cons x xs ih =>
    by_cases hx : key x = q
    · rw [pySortDesc, List.foldr_cons, ← pySortDesc,
        insertDesc_filter_eq key x q hx, ih, List.filter_cons,
        if_pos (by simp [hx])]
    · rw [pySortDesc, List.foldr_cons, ← pySortDesc,
        insertDesc_filter_ne key x q hx, ih, List.filter_cons,
        if_neg (by simp [hx])]

/- ### Characterization of the quota assembly -/

theorem addGovLoop_eq (l : List ScoredRec) (top : List ScoredRec) (c : Nat)
    (hc : c ≤ 3) :
    addGovLoop l top c = (top ++ l.take (3 - c), min 3 (c + l.length)) := by
  induction l generalizing top c with
  | nil => simp [addGovLoop]; omega
  | cons r rest ih =>
    rw [addGovLoop]
    split
    · rename_i h
      rw [ih (top ++ [r]) (c + 1) (by omega)]
      have h3 : 3 - c = (3 - (c + 1)) + 1 := by omega
      rw [h3, List.take_succ_cons]
      refine Prod.ext ?_ ?_
      · simp
      · simp only [List.length_cons]
        omega
    · rename_i h
      have hc3 : c = 3 := by omega
      subst hc3
      rw [ih top 3 (by omega)]
      simp

theorem addPrivLoop_eq (l : List ScoredRec) (top : List ScoredRec)
    (pc : Nat) :
    addPrivLoop l top pc =
      top ++ l.take (min (3 - pc) (5 - top.length)) := by
  induction l generalizing top pc with
  | nil => simp [addPrivLoop]
  | cons r rest ih =>
    rw [addPrivLoop]
    split
    · rename_i h
      rw [ih (top ++ [r]) (pc + 1)]
      have hm : min (3 - pc) (5 - top.length) =
          (min (3 - (pc + 1)) (5 - (top ++ [r]).length)) + 1 := by
        simp only [List.length_append, List.length_cons, List.length_nil]
        omega
      rw [hm, List.take_succ_cons]
      simp
    · rename_i h
      have hm : min (3 - pc) (5 - top.length) = 0 := by omega
      rw [ih top pc, hm]
      simp [hm]

theorem fillGovLoop_eq (l : List ScoredRec) (top : List ScoredRec) :
    fillGovLoop l top = top ++ l.take (5 - top.length) := by
  induction l generalizing top with
  | nil => simp [fillGovLoop]
  | cons r rest ih =>
    rw [fillGovLoop]
    split
    · rename_i h
      rw [ih (top ++ [r])]
      have hm : 5 - top.length = (5 - (top ++ [r]).length) + 1 := by
        simp only [List.length_append, List.length_cons, List.length_nil]
        omega
      rw [hm, List.take_succ_cons]
      simp
    · rename_i h
      have hm : 5 - top.length = 0 := by omega
      rw [ih top, hm]
      simp [hm]

/-- Closed form of the quota assembly: up to 3 government candidates, then
up to `min 3 (5 - taken)` private ones, then leftover government fill. -/
theorem quotaAssembly_eq (recs : List Rec) (user : Option UserRec) :
    quotaAssembly recs user =
      (govBucket user recs).take 3 ++
        (privBucket user recs).take
          (min 3 (5 - ((govBucket user recs).take 3).length)) ++
        (if ((govBucket user recs).take 3).length +
              ((privBucket user recs).take
                (min 3 (5 - ((govBucket user recs).take 3).length))).length < 5 ∧
            min 3 (govBucket user recs).length < (govBucket user recs).length
          then
            ((govBucket user recs).drop (min 3 (govBucket user recs).length)).take
              (5 - (((govBucket user recs).take 3).length +
                ((privBucket user recs).take
                  (min 3 (5 - ((govBucket user recs).take 3).length))).length))
          else []) := by
  rw [quotaAssembly]
  rw [addGovLoop_eq _ [] 0 (by omega)]
  simp only [List.nil_append, Nat.zero_add, Nat.sub_zero]
  rw [addPrivLoop_eq]
  simp only [List.length_append]
  split
  · rename_i h
    rw [fillGovLoop_eq]
    simp only [List.length_append, List.append_assoc]
  · rename_i h
    simp only [List.append_assoc, List.append_nil]

theorem scoreRec_cand (user : Option UserRec) (r : Rec) :
    (scoreRec user r).cand = r := by
  rw [scoreRec]
  split
  · rfl
  · rfl

theorem mem_govBucket (user : Option UserRec) (recs : List Rec)
    (s : ScoredRec) (h : s ∈ govBucket user recs) :
    isGovRec s.cand = true := by
  rw [govBucket] at h
  exact (List.mem_filter.mp ((pySortDesc_perm _ _).mem_iff.mp h)).2

theorem mem_privBucket (user : Option UserRec) (recs : List Rec)
    (s : ScoredRec) (h : s ∈ privBucket user recs) :
    isGovRec s.cand = false := by
  rw [privBucket] at h
  have h2 := (List.mem_filter.mp ((pySortDesc_perm _ _).mem_iff.mp h)).2
  simpa using h2

theorem mem_govBucket_pool (user : Option UserRec) (recs : List Rec)
    (s : ScoredRec) (h : s ∈ govBucket user recs) :
    s ∈ recs.map (scoreRec user) := by
  rw [govBucket] at h
  exact (List.mem_filter.mp ((pySortDesc_perm _ _).mem_iff.mp h)).1

theorem mem_privBucket_pool (user : Option UserRec) (recs : List Rec)
    (s : ScoredRec) (h : s ∈ privBucket user recs) :
    s ∈ recs.map (scoreRec user) := by
  rw [privBucket] at h
  exact (List.mem_filter.mp ((pySortDesc_perm _ _).mem_iff.mp h)).1

theorem govBucket_length (user : Option UserRec) (recs : List Rec) :
    (govBucket user recs).length =
      (recs.filter (fun r => isGovRec r)).length := by
  rw [govBucket, (pySortDesc_perm _ _).length_eq,
    ← List.countP_eq_length_filter, List.countP_map,
    ← List.countP_eq_length_filter]
  apply List.countP_congr
  intro r _
  simp [Function.comp, scoreRec_cand]

theorem privBucket_length (user : Option UserRec) (recs : List Rec) :
    (privBucket user recs).length =
      (recs.filter (fun r => !isGovRec r)).length := by
  rw [privBucket, (pySortDesc_perm _ _).length_eq,
    ← List.countP_eq_length_filter, List.countP_map,
    ← List.countP_eq_length_filter]
  apply List.countP_congr
  intro r _
  simp [Function.comp, scoreRec_cand]

theorem quotaAssembly_length (recs : List Rec) (user : Option UserRec) :
    (quotaAssembly recs user).length =
      min 5 ((govBucket user recs).length +
        min 3 (privBucket user recs).length) := by
  rw [quotaAssembly_eq]
  simp only [List.length_append, List.length_take, List.length_drop]
  split
  · rename_i h
    simp only [List.length_take, List.length_drop]
    omega
  · simp only [List.length_nil]
    omega

theorem quotaAssembly_length_le (recs : List Rec) (user : Option UserRec) :
    (quotaAssembly recs user).length ≤ 5 := by
  rw [quotaAssembly_length]
  omega

/-- The `[:5]` truncation of the final sort is a no-op: the assembly never
exceeds five entries. -/
theorem sortRecs_eq_sorted (recs : List Rec) (user : Option UserRec) :
    sort_recommendations_by_match recs user =
      pySortDesc (fun s => s.skill_match_score) (quotaAssembly recs user) := by
  rw [sort_recommendations_by_match]
  apply List.take_of_length_le
  rw [(pySortDesc_perm _ _).length_eq]
  exact quotaAssembly_length_le recs user

theorem mem_sortRecs_scored (recs : List Rec) (user : Option UserRec)
    (s : ScoredRec) (h : s ∈ sort_recommendations_by_match recs user) :
    s ∈ recs.map (scoreRec user) := by
  rw [sort_recommendations_by_match] at h
  have h1 := List.take_subset _ _ h
  have h2 := (pySortDesc_perm _ _).mem_iff.mp h1
  rw [quotaAssembly_eq] at h2
  rcases List.mem_append.mp h2 with h3 | h3
  · rcases List.mem_append.mp h3 with h4 | h4
    · exact mem_govBucket_pool user recs s (List.take_subset _ _ h4)
    · exact mem_privBucket_pool user recs s (List.take_subset _ _ h4)
  · split at h3
    · exact mem_govBucket_pool user recs s
        (List.drop_subset _ _ (List.take_subset _ _ h3))
    · simp at h3

/-- C4: the ranking returns at most five entries, sorted by
`skill_match_score` descending; each equal-score class keeps the exact
order the quota assembly produced (stability of the final sort); the
private category never exceeds its 3-item quota, and the government
category exceeds it only when every private candidate of the pool is
already in the result. -/
theorem claim_C4 (recs : List Rec) (user : Option UserRec) :
    (sort_recommendations_by_match recs user).length ≤ 5 ∧
    (sort_recommendations_by_match recs user).Pairwise
      (fun a b => b.skill_match_score ≤ a.skill_match_score) ∧
    (∀ q : Rat,
      (sort_recommendations_by_match recs user).filter
          (fun s => s.skill_match_score = q) =
        (quotaAssembly recs user).filter (fun s => s.skill_match_score = q)) ∧
    (sort_recommendations_by_match recs user).countP
        (fun s => !isGovRec s.cand) ≤ 3 ∧
    ((sort_recommendations_by_match recs user).countP
        (fun s => isGovRec s.cand) ≤ 3 ∨
      (sort_recommendations_by_match recs user).countP
          (fun s => !isGovRec s.cand) =
        (recs.filter (fun r => !isGovRec r)).length) := by
  have htake := sortRecs_eq_sorted recs user
  have hperm : List.Perm (sort_recommendations_by_match recs user)
      (quotaAssembly recs user) := by
    rw [htake]; exact pySortDesc_perm _ _
  have hcountGov := hperm.countP_eq (fun s => isGovRec s.cand)
  have hcountPriv := hperm.countP_eq (fun s => !isGovRec s.cand)
  have hGovTake : ∀ n, ((govBucket user recs).take n).countP
      (fun s => isGovRec s.cand) = ((govBucket user recs).take n).length := by
    intro n
    refine List.countP_eq_length.mpr ?_
    intro a ha
    simpa using mem_govBucket user recs a (List.take_subset _ _ ha)
  have hGovTakeP : ∀ n, ((govBucket user recs).take n).countP
      (fun s => !isGovRec s.cand) = 0 := by
    intro n
    refine List.countP_eq_zero.mpr ?_
    intro a ha
    simpa using mem_govBucket user recs a (List.take_subset _ _ ha)
  have hGovDropTake : ∀ n k, (((govBucket user recs).drop n).take k).countP
      (fun s => isGovRec s.cand) =
        (((govBucket user recs).drop n).take k).length := by
    intro n k
    refine List.countP_eq_length.mpr ?_
    intro a ha
    simpa using mem_govBucket user recs a
      (List.drop_subset _ _ (List.take_subset _ _ ha))
  have hGovDropTakeP : ∀ n k, (((govBucket user recs).drop n).take k).countP
      (fun s => !isGovRec s.cand) = 0 := by
    intro n k
    refine List.countP_eq_zero.mpr ?_
    intro a ha
    simpa using mem_govBucket user recs a
      (List.drop_subset _ _ (List.take_subset _ _ ha))
  have hPrivTake : ∀ n, ((privBucket user recs).take n).countP
      (fun s => !isGovRec s.cand) = ((privBucket user recs).take n).length := by
    intro n
    refine List.countP_eq_length.mpr ?_
    intro a ha
    simpa using mem_privBucket user recs a (List.take_subset _ _ ha)
  have hPrivTakeG : ∀ n, ((privBucket user recs).take n).countP
      (fun s => isGovRec s.cand) = 0 := by
    intro n
    refine List.countP_eq_zero.mpr ?_
    intro a ha
    simpa using mem_privBucket user recs a (List.take_subset _ _ ha)
  refine ⟨?_, ?_, ?_, ?_, ?_⟩
  · rw [sort_recommendations_by_match, List.length_take]
    omega
  · rw [htake]
    exact pySortDesc_sorted _ _
  · intro q
    rw [htake]
    exact pySortDesc_filter _ q _
  · rw [hcountPriv, quotaAssembly_eq, List.countP_append, List.countP_append,
      hGovTakeP, hPrivTake]
    split
    · rw [hGovDropTakeP]
      simp only [List.length_take]
      omega
    · simp only [List.countP_nil]
      simp only [List.length_take]
      omega
  · rw [hcountGov, hcountPriv, quotaAssembly_eq, List.countP_append,
      List.countP_append, List.countP_append, List.countP_append,
      hGovTake, hGovTakeP, hPrivTake, hPrivTakeG]
    rw [← privBucket_length user recs]
    split
    · rename_i h
      rw [hGovDropTake, hGovDropTakeP]
      right
      simp only [List.length_take, List.length_drop] at h ⊢
      omega
    · simp only [List.countP_nil]
      left
      simp only [List.length_take]
      omega

/-- C1 (amended): the ranking returns `min 5 (G + min 3 P)` candidates,
where `G` and `P` are the numbers of government and non-government
candidates in the pool — up to 3 government first, then up to 3 private
without exceeding 5 in total, then remaining slots are refilled from
leftover *government* candidates only.  The private bucket never
contributes beyond 3, so a pool with at least 5 candidates but fewer than
2 government ones yields fewer than 5 results. -/
theorem claim_C1_amended (recs : List Rec) (user : Option UserRec) :
    (sort_recommendations_by_match recs user).length =
      min 5 ((recs.filter (fun r => isGovRec r)).length +
        min 3 (recs.filter (fun r => !isGovRec r)).length) := by
  have h1 : (sort_recommendations_by_match recs user).length =
      (quotaAssembly recs user).length := by
    rw [sortRecs_eq_sorted, (pySortDesc_perm _ _).length_eq]
  rw [h1, quotaAssembly_length, govBucket_length, privBucket_length]

/-- A pool of six private-sector candidates and no government ones: a
concrete input refuting C1 as stated (the claim demands exactly 5 results
for every pool of at least 5 candidates, including government-deficient
pools; the code returns 3 because the private bucket is capped at 3 and
only government candidates refill). -/
def c1Pool : List Rec :=
  [⟨cs "p1", some (cs "private-based"), []⟩,
   ⟨cs "p2", some (cs "private-based"), []⟩,
   ⟨cs "p3", some (cs "private-based"), []⟩,
   ⟨cs "p4", some (cs "private-based"), []⟩,
   ⟨cs "p5", some (cs "private-based"), []⟩,
   ⟨cs "p6", some (cs "private-based"), []⟩]

/-- C1 counterexample: a pool of 6 candidates (≥ 5) for which the ranking
returns 3 results, not 5. -/
theorem claim_C1_counterexample :
    5 ≤ c1Pool.length ∧
    (sort_recommendations_by_match c1Pool none).length = 3 ∧
    (sort_recommendations_by_match c1Pool none).length ≠ 5 := by
  refine ⟨by decide, by decide, by decide⟩

/-- C5: every entry of the ranking output carries the SkillMatcher score
with the government policy applied: government candidates report
`min 100 (base + 10)`, all others report the plain base score. -/
theorem claim_C5 (recs : List Rec) (user : Option UserRec) :
    ∀ s ∈ sort_recommendations_by_match recs user,
      s.skill_match_score =
        if isGovRec s.cand then
          min 100 (baseScore user s.cand + 10)
        else baseScore user s.cand := by
  intro s hs
  rcases List.mem_map.mp (mem_sortRecs_scored recs user s hs) with ⟨r, hr, rfl⟩
  rw [scoreRec_cand]
  by_cases hg : isGovRec r
  · simp only [scoreRec, hg, if_true, if_pos]
    rw [qmin_eq, qadd_eq, qofNat_eq, qofNat_eq]
    push_cast
    rfl
  · simp [scoreRec, hg]

/-- Concrete profile for the C5 witness: skills `python, ab`. -/
def c5User : UserRec := ⟨.ofList [cs "python", cs "ab"], none, none, none⟩

/-- Concrete government candidate for the C5 witness: its required skills
give an exact hit (`python`) and a substring hit (`ab` in `abxyz`), so the
base score is `(1.0 + 0.9) / 2 * 100 = 95`. -/
def c5Rec : Rec := ⟨cs "g", some (cs "government"), [cs "python", cs "abxyz"]⟩

theorem claim_C5_witness :
    (⟨c5Rec, qofNat 100⟩ : ScoredRec).skill_match_score =
      (if isGovRec (⟨c5Rec, qofNat 100⟩ : ScoredRec).cand then
        min 100 (baseScore (some c5User)
          (⟨c5Rec, qofNat 100⟩ : ScoredRec).cand + 10)
      else baseScore (some c5User) (⟨c5Rec, qofNat 100⟩ : ScoredRec).cand) ∧
    baseScore (some c5User) c5Rec = qofNat 95 ∧
    (⟨c5Rec, qofNat 100⟩ : ScoredRec) ∈
      sort_recommendations_by_match [c5Rec] (some c5User) :=
  ⟨claim_C5 [c5Rec] (some c5User) ⟨c5Rec, qofNat 100⟩ (by decide),
   by decide, by decide⟩

/- ### C2: the per-skill weight against the max-of-four-checks reading -/

/-- Whether the synonym table relates `req` and `u` (one side a table key,
the other a listed variant). -/
def synHit (req u : Str) : Bool :=
  skillVariations.any
    (fun p => decide ((req = p.1 ∧ u ∈ p.2) ∨ (u = p.1 ∧ req ∈ p.2)))

/-- The per-pair weight exactly as claim C2 words it: the maximum over the
four independent checks — 1.0 on exact match, the ratio whenever it is at
least 0.8, 0.9 on substring containment, 0.95 on a synonym hit (`qmax`
is Mathlib `max` by `qmax_eq`; the fraction literals are the exact float
constants of the source). -/
def specCheckWeightC2 (u req : Str) : Rat :=
  qmax (if u = req then qofNat 1 else qofNat 0)
    (qmax (if Rat.divInt 4 5 ≤ seqRatioQ u req then seqRatioQ u req else qofNat 0)
      (qmax (if pyContains u req || pyContains req u then Rat.divInt 9 10
             else qofNat 0)
        (if synHit req u then Rat.divInt 19 20 else qofNat 0)))

/-- The per-required-skill weight as claim C2 words it: the maximum of the
per-pair weights over all user skills. -/
def specSkillWeightC2 (userSkills : List Str) (req : Str) : Rat :=
  (userSkills.map (fun u => specCheckWeightC2 u req)).foldl qmax (qofNat 0)

/-- C2 counterexample.  User skill `java` against required skill `javax`:
the ratio is `8/9 > 0.8`, so the `elif` skips the substring check and the
code keeps `8/9`, while the claimed maximum over all checks is `0.9`.
User skill `axb` against required skill `ab`: the ratio is exactly `0.8`,
which the claim admits (`≥ 0.8`) but the code rejects (strict `> 0.8`),
and no other check fires, so the code weight is `0`. -/
theorem claim_C2_counterexample :
    bestMatchGo (cs "javax") [cs "java"] (qofNat 0) = Rat.divInt 8 9 ∧
    specSkillWeightC2 [cs "java"] (cs "javax") = Rat.divInt 9 10 ∧
    bestMatchGo (cs "javax") [cs "java"] (qofNat 0) ≠
      specSkillWeightC2 [cs "java"] (cs "javax") ∧
    bestMatchGo (cs "ab") [cs "axb"] (qofNat 0) = qofNat 0 ∧
    specSkillWeightC2 [cs "axb"] (cs "ab") = Rat.divInt 4 5 ∧
    bestMatchGo (cs "ab") [cs "axb"] (qofNat 0) ≠
      specSkillWeightC2 [cs "axb"] (cs "ab") := by
  refine ⟨by decide, by decide, by decide, by decide, by decide, by decide⟩

theorem seqRatioQ_nonneg (a b : Str) : 0 ≤ seqRatioQ a b := by
  rw [seqRatioQ]
  split
  · rw [qofNat_eq]
    norm_num
  · rw [qdiv_eq, qofNat_eq, qofNat_eq]
    positivity

theorem qmax_assoc (a b c : Rat) : qmax (qmax a b) c = qmax a (qmax b c) := by
  simp only [qmax_eq]
  exact max_assoc a b c

theorem qmax_absorb (a b : Rat) : qmax (qmax a b) b = qmax a b := by
  rw [qmax_assoc]
  simp only [qmax_eq, max_self]

theorem qmax_eq_left {a b : Rat} (h : b ≤ a) : qmax a b = a := by
  rw [qmax_eq]
  exact max_eq_left h

theorem synPass_aux (req u : Str) (l : List (Str × List Str)) :
    ∀ b : Rat,
      l.foldl
        (fun acc p =>
          if (req = p.1 ∧ u ∈ p.2) ∨ (u = p.1 ∧ req ∈ p.2) then
            qmax acc (Rat.divInt 19 20)
          else acc)
        b =
      if l.any
          (fun p => decide ((req = p.1 ∧ u ∈ p.2) ∨ (u = p.1 ∧ req ∈ p.2)))
        then qmax b (Rat.divInt 19 20)
      else b := by
  induction l with
  | nil => intro b; simp
  | cons p rest ih =>
    intro b
    rw [List.foldl_cons]
    by_cases hp : (req = p.1 ∧ u ∈ p.2) ∨ (u = p.1 ∧ req ∈ p.2)
    · rw [if_pos hp, ih]
      have hany : (p :: rest).any
          (fun p => decide ((req = p.1 ∧ u ∈ p.2) ∨ (u = p.1 ∧ req ∈ p.2))) =
          true := by
        simp [hp]
      rw [hany, if_pos rfl]
      split
      · exact qmax_absorb b (Rat.divInt 19 20)
      · rfl
    · rw [if_neg hp, ih]
      have hany : (p :: rest).any
          (fun p => decide ((req = p.1 ∧ u ∈ p.2) ∨ (u = p.1 ∧ req ∈ p.2))) =
          rest.any
            (fun p => decide ((req = p.1 ∧ u ∈ p.2) ∨ (u = p.1 ∧ req ∈ p.2))) := by
        simp [hp]
      rw [hany]

theorem synPass_eq (req u : Str) (b : Rat) :
    synPass req u b =
      if synHit req u then qmax b (Rat.divInt 19 20) else b :=
  synPass_aux req u skillVariations b

/-- The per-pair weight after the correction the counterexample forces:
the ratio counts only when strictly above 0.8, the substring weight only
when the ratio branch did not fire; the synonym weight is independent. -/
def amendedCheckWeightC2 (u req : Str) : Rat :=
  qmax
    (if Rat.divInt 4 5 < seqRatioQ u req then seqRatioQ u req
     else if pyContains u req || pyContains req u then Rat.divInt 9 10
     else qofNat 0)
    (if synHit req u then Rat.divInt 19 20 else qofNat 0)

theorem bestMatch_step (req u : Str) (b : Rat) (hb : 0 ≤ b) :
    synPass req u
      (if Rat.divInt 4 5 < seqRatioQ u req then qmax b (seqRatioQ u req)
       else if pyContains u req || pyContains req u then
         qmax b (Rat.divInt 9 10)
       else b) = qmax b (amendedCheckWeightC2 u req) := by
  rw [synPass_eq, amendedCheckWeightC2]
  have h0 : qofNat 0 = (0 : Rat) := by rw [qofNat_eq]; norm_num
  by_cases h1 : Rat.divInt 4 5 < seqRatioQ u req
  · rw [if_pos h1, if_pos h1]
    by_cases h2 : synHit req u
    · rw [if_pos h2, if_pos h2]
      exact qmax_assoc b (seqRatioQ u req) (Rat.divInt 19 20)
    · rw [if_neg h2, if_neg h2]
      have hsim : qmax (seqRatioQ u req) (qofNat 0) = seqRatioQ u req := by
        apply qmax_eq_left
        rw [h0]
        exact seqRatioQ_nonneg u req
      rw [hsim]
  · rw [if_neg h1, if_neg h1]
    by_cases h3 : pyContains u req || pyContains req u
    · rw [if_pos h3, if_pos h3]
      by_cases h2 : synHit req u
      · rw [if_pos h2, if_pos h2]
        exact qmax_assoc b (Rat.divInt 9 10) (Rat.divInt 19 20)
      · rw [if_neg h2, if_neg h2]
        have h9 : qmax (Rat.divInt 9 10) (qofNat 0) = Rat.divInt 9 10 := by
          apply qmax_eq_left
          rw [h0]
          norm_num [Rat.divInt_eq_div]
        rw [h9]
    · rw [if_neg h3, if_neg h3]
      by_cases h2 : synHit req u
      · rw [if_pos h2, if_pos h2]
        have h19 : qmax (qofNat 0) (Rat.divInt 19 20) = Rat.divInt 19 20 := by
          rw [qmax_eq, h0]
          exact max_eq_right (by norm_num [Rat.divInt_eq_div])
        rw [h19]
      · rw [if_neg h2, if_neg h2]
        have hz : qmax (qofNat 0) (qofNat 0) = qofNat 0 := by
          rw [qmax_eq, max_self]
        have hbz : qmax b (qofNat 0) = b := by
          apply qmax_eq_left
          rw [h0]
          exact hb
        rw [hz, hbz]

theorem bestMatchGo_exact (req : Str) (l : List Str) (hin : req ∈ l) :
    ∀ b : Rat, bestMatchGo req l b = qofNat 1 := by
  induction l with
  | nil => cases hin
  | cons u rest ih =>
    intro b
    rw [bestMatchGo]
    by_cases hu : u = req
    · rw [if_pos hu]
    · rw [if_neg hu]
      have hin' : req ∈ rest := by
        rcases List.mem_cons.mp hin with h | h
        · exact absurd h.symm hu
        · exact h
      exact ih hin' _

theorem bestMatchGo_noexact (req : Str) (l : List Str) (hno : req ∉ l) :
    ∀ b : Rat, 0 ≤ b →
      bestMatchGo req l b =
        (l.map (fun u => amendedCheckWeightC2 u req)).foldl qmax b := by
  induction l with
  | nil => intro b _; rfl
  | cons u rest ih =>
    intro b hb
    have hu : u ≠ req := by
      intro h
      exact hno (h ▸ List.mem_cons_self u rest)
    have hno' : req ∉ rest := fun h => hno (List.mem_cons_of_mem u h)
    rw [bestMatchGo, if_neg hu]
    dsimp only
    rw [bestMatch_step req u b hb]
    rw [List.map_cons, List.foldl_cons]
    refine ih hno' _ ?_
    rw [qmax_eq]
    exact le_max_of_le_left hb

/-- C2 (amended): the weight for a required skill is exactly 1.0 when a
user skill matches it exactly (case-insensitive); otherwise it is the
maximum over user skills of the corrected per-pair weight — the similarity
ratio when strictly greater than 0.8, else 0.9 on substring containment,
with an independent 0.95 on a synonym-table hit. -/
theorem claim_C2_amended (userSkills : List Str) (req : Str) :
    bestMatchGo req userSkills (qofNat 0) =
      if req ∈ userSkills then qofNat 1
      else
        (userSkills.map (fun u => amendedCheckWeightC2 u req)).foldl qmax
          (qofNat 0) := by
  by_cases hin : req ∈ userSkills
  · rw [if_pos hin]
    exact bestMatchGo_exact req userSkills hin _
  · rw [if_neg hin]
    refine bestMatchGo_noexact req userSkills hin _ ?_
    rw [qofNat_eq]
    norm_num

/- ### C8: the aggregate score against the unrounded reading -/

/-- The aggregate score exactly as claim C8 words it: base percentage
(sum of per-skill weights over the count, times 100) plus the additive
profile bonuses, clamped to 100 — with no final rounding. -/
def specScoreC8 (user_skills_string : SkillsInput)
    (required_skills_list : List Str) (user_profile : Option UserRec) : Rat :=
  let user_skills := parseUserSkills user_skills_string
  let required_skills :=
    (required_skills_list.filter (fun s => !(pyStrip s).isEmpty)).map
      (fun s => pyLower (pyStrip s))
  let match_score :=
    required_skills.foldl
      (fun acc req => qadd acc (bestMatchGo req user_skills (qofNat 0)))
      (qofNat 0)
  qmin (qofNat 100)
    (qadd (qmul (qdiv match_score (qofNat required_skills.length)) (qofNat 100))
      (qofNat (bonusPoints user_profile)))

/-- C8 counterexample: user skill `java` against required skill `javax`
(no profile).  The per-skill weight is `8/9`, so the claimed value is
`800/9 = 88.888...`, but the function returns the rounded `88.9`. -/
theorem claim_C8_counterexample :
    calculate_skill_match_score (.ofList [cs "java"]) [cs "javax"] none =
      Rat.divInt 889 10 ∧
    specScoreC8 (.ofList [cs "java"]) [cs "javax"] none = Rat.divInt 800 9 ∧
    calculate_skill_match_score (.ofList [cs "java"]) [cs "javax"] none ≠
      specScoreC8 (.ofList [cs "java"]) [cs "javax"] none := by
  refine ⟨by decide, by decide, by decide⟩

theorem qmax_le_left (a b : Rat) : a ≤ qmax a b := by
  rw [qmax_eq]
  exact le_max_left a b

theorem bestMatchGo_nonneg (req : Str) (l : List Str) :
    ∀ b : Rat, 0 ≤ b → 0 ≤ bestMatchGo req l b := by
  induction l with
  | nil => intro b hb; exact hb
  | cons u rest ih =>
    intro b hb
    rw [bestMatchGo]
    by_cases hu : u = req
    · rw [if_pos hu, qofNat_eq]
      norm_num
    · rw [if_neg hu]
      dsimp only
      apply ih
      rw [synPass_eq]
      have hb1 : 0 ≤
          (if Rat.divInt 4 5 < seqRatioQ u req then
            qmax b (seqRatioQ u req)
          else if (pyContains u req || pyContains req u) = true then
            qmax b (Rat.divInt 9 10)
          else b) := by
        split
        · exact le_trans hb (qmax_le_left _ _)
        · split
          · exact le_trans hb (qmax_le_left _ _)
          · exact hb
      split
      · exact le_trans hb1 (qmax_le_left _ _)
      · exact hb1

theorem matchScore_nonneg (usr : List Str) (l : List Str) :
    ∀ b : Rat, 0 ≤ b →
      0 ≤ l.foldl
        (fun acc req => qadd acc (bestMatchGo req usr (qofNat 0))) b := by
  induction l with
  | nil => intro b hb; exact hb
  | cons req rest ih =>
    intro b hb
    rw [List.foldl_cons]
    apply ih
    rw [qadd_eq]
    have h1 : 0 ≤ bestMatchGo req usr (qofNat 0) := by
      apply bestMatchGo_nonneg
      rw [qofNat_eq]
      norm_num
    linarith

/-- `rndHalfEven` stays within an integer range containing its argument. -/
theorem rndHalfEven_bounds (y : Rat) (hy0 : 0 ≤ y) (hy1000 : y ≤ 1000) :
    0 ≤ rndHalfEven y ∧ rndHalfEven y ≤ 1000 := by
  have hden : (0 : Int) < (y.den : Int) := by exact_mod_cast y.pos
  have hden' : ((y.den : ℚ)) ≠ 0 := by positivity
  have hnum0 : (0 : Int) ≤ y.num := Rat.num_nonneg.mpr hy0
  have hub : y.num ≤ 1000 * (y.den : Int) := by
    have hnd : ((y.num : ℚ)) = y * (y.den : ℚ) :=
      (div_eq_iff hden').mp (Rat.num_div_den y)
    have h2 : ((y.num : ℚ)) ≤ 1000 * (y.den : ℚ) := by
      rw [hnd]
      have hd0 : (0 : ℚ) ≤ (y.den : ℚ) := by positivity
      exact mul_le_mul_of_nonneg_right hy1000 hd0
    exact_mod_cast h2
  have hf := Int.fdiv_add_fmod y.num (y.den : Int)
  have hm0 : (0 : Int) ≤ y.num.fmod (y.den : Int) :=
    Int.fmod_nonneg' y.num hden
  have hmlt : y.num.fmod (y.den : Int) < (y.den : Int) :=
    Int.fmod_lt_of_pos y.num hden
  have hf0 : (0 : Int) ≤ y.num.fdiv (y.den : Int) :=
    Int.fdiv_nonneg hnum0 (le_of_lt hden)
  have hf1000 : y.num.fdiv (y.den : Int) ≤ 1000 := by
    by_contra hgt
    push_neg at hgt
    have h1001 : (1001 : Int) ≤ y.num.fdiv (y.den : Int) := hgt
    have h1 : (y.den : Int) * 1001 ≤ (y.den : Int) * y.num.fdiv (y.den : Int) :=
      mul_le_mul_of_nonneg_left h1001 (le_of_lt hden)
    omega
  rw [rndHalfEven]
  have hcomm : y.num.fdiv (y.den : Int) * (y.den : Int) =
      (y.den : Int) * y.num.fdiv (y.den : Int) := mul_comm _ _
  have hr2 : 2 * (y.num - y.num.fdiv (y.den : Int) * (y.den : Int)) =
      2 * (y.num.fmod (y.den : Int)) := by
    rw [hcomm]
    omega
  split
  · exact ⟨hf0, hf1000⟩
  · rename_i hc1
    rw [hr2] at hc1
    have hfmodpos : 0 < y.num.fmod (y.den : Int) := by omega
    have hlt1000 : y.num.fdiv (y.den : Int) < 1000 := by
      rcases lt_or_eq_of_le hf1000 with h | h
      · exact h
      · exfalso
        rw [h] at hf
        omega
    split
    · exact ⟨by omega, by omega⟩
    · split
      · exact ⟨hf0, hf1000⟩
      · exact ⟨by omega, by omega⟩

/-- Round-half-to-even at one decimal maps `[0, 100]` into itself. -/
theorem qround1_bounds (q : Rat) (h0 : 0 ≤ q) (h100 : q ≤ 100) :
    0 ≤ qround1 q ∧ qround1 q ≤ 100 := by
  have hy' : qmul q (qofNat 10) = 10 * q := by
    rw [qmul_eq, qofNat_eq]
    push_cast
    ring
  have hb := rndHalfEven_bounds (qmul q (qofNat 10))
    (by rw [hy']; positivity) (by rw [hy']; linarith)
  rw [qround1, Rat.divInt_eq_div]
  have h1 : (0 : ℚ) ≤ ((rndHalfEven (qmul q (qofNat 10)) : ℚ)) := by
    exact_mod_cast hb.1
  have h2 : ((rndHalfEven (qmul q (qofNat 10)) : ℚ)) ≤ 1000 := by
    exact_mod_cast hb.2
  constructor
  · exact div_nonneg h1 (by norm_num)
  · rw [div_le_iff₀ (by norm_num : (0 : ℚ) < ((10 : ℤ) : ℚ))]
    push_cast
    linarith

/-- C8 (amended): for truthy user skills and a non-blank required list, the
score is exactly the claimed clamped base-plus-bonuses value rounded to
one decimal (round-half-even), and it lies in `[0, 100]`. -/
theorem claim_C8_amended (us : SkillsInput) (rs : List Str)
    (prof : Option UserRec) (h1 : us.truthy = true)
    (h2 : parseUserSkills us ≠ [])
    (h3 : rs.filter (fun s => !(pyStrip s).isEmpty) ≠ []) :
    calculate_skill_match_score us rs prof =
      qround1 (specScoreC8 us rs prof) ∧
    0 ≤ calculate_skill_match_score us rs prof ∧
    calculate_skill_match_score us rs prof ≤ 100 := by
  have hrs : ¬ rs.isEmpty = true := by
    intro h
    rw [List.isEmpty_iff] at h
    rw [h] at h3
    simp at h3
  have heq : calculate_skill_match_score us rs prof =
      qround1 (specScoreC8 us rs prof) := by
    rw [calculate_skill_match_score, specScoreC8]
    rw [if_neg (by simp [h1, List.isEmpty_iff] at hrs ⊢; exact hrs)]
    rw [if_neg (by simp [List.isEmpty_iff, h2, h3])]
  have hzero : (0 : ℚ) ≤ qofNat 0 := by rw [qofNat_eq]; norm_num
  have hspec : 0 ≤ specScoreC8 us rs prof ∧ specScoreC8 us rs prof ≤ 100 := by
    rw [specScoreC8]
    rw [qmin_eq]
    constructor
    · apply le_min
      · rw [qofNat_eq]
        norm_num
      · rw [qadd_eq, qmul_eq, qdiv_eq]
        have hms := matchScore_nonneg (parseUserSkills us)
          ((rs.filter (fun s => !(pyStrip s).isEmpty)).map
            (fun s => pyLower (pyStrip s))) (qofNat 0) hzero
        apply add_nonneg
        · apply mul_nonneg
          · apply div_nonneg hms
            rw [qofNat_eq]
            positivity
          · rw [qofNat_eq]
            positivity
        · rw [qofNat_eq]
          positivity
    · refine le_trans (min_le_left _ _) ?_
      rw [qofNat_eq]
      norm_num
  refine ⟨heq, ?_, ?_⟩
  · rw [heq]
    exact (qround1_bounds _ hspec.1 hspec.2).1
  · rw [heq]
    exact (qround1_bounds _ hspec.1 hspec.2).2

theorem claim_C8_witness :
    (calculate_skill_match_score (.ofList [cs "python"]) [cs "python"] none =
      qround1 (specScoreC8 (.ofList [cs "python"]) [cs "python"] none)) ∧
    0 ≤ calculate_skill_match_score (.ofList [cs "python"]) [cs "python"] none ∧
    calculate_skill_match_score (.ofList [cs "python"]) [cs "python"] none ≤
      100 :=
  claim_C8_amended (.ofList [cs "python"]) [cs "python"] none (by decide)
    (by decide) (by decide)

/- ### C10: the two accepted skill-input shapes are equivalent -/

theorem pySplit_no_sep (xs : Str) (hx : ',' ∉ xs) :
    pySplit ',' xs = [xs] := by
  induction xs with
  | nil => rfl
  | cons c rest ih =>
    have hc : c ≠ ',' := fun h => hx (h ▸ List.mem_cons_self c rest)
    have hrest : ',' ∉ rest := fun h => hx (List.mem_cons_of_mem c h)
    rw [pySplit, if_neg hc, ih hrest]

theorem pySplit_append_sep (xs ys : Str) (hx : ',' ∉ xs) :
    pySplit ',' (xs ++ ',' :: ys) = xs :: pySplit ',' ys := by
  induction xs with
  | nil => rw [List.nil_append, pySplit, if_pos rfl]
  | cons c rest ih =>
    have hc : c ≠ ',' := fun h => hx (h ▸ List.mem_cons_self c rest)
    have hrest : ',' ∉ rest := fun h => hx (List.mem_cons_of_mem c h)
    rw [List.cons_append, pySplit, if_neg hc, ih hrest]

theorem pySplit_pyJoin (l : List Str) (hl : ∀ s ∈ l, ',' ∉ s)
    (hne : l ≠ []) : pySplit ',' (pyJoin (cs ",") l) = l := by
  induction l with
  | nil => exact absurd rfl hne
  | cons s rest ih =>
    cases rest with
    | nil =>
      rw [pyJoin]
      exact pySplit_no_sep s (hl s (List.mem_cons_self s []))
    | cons t rest2 =>
      have hexp : pyJoin (cs ",") (s :: t :: rest2) =
          s ++ (cs "," ++ pyJoin (cs ",") (t :: rest2)) := by
        simp [pyJoin, List.append_assoc]
      rw [hexp]
      have hs : ',' ∉ s := hl s (List.mem_cons_self s _)
      have hrest : ∀ x ∈ t :: rest2, ',' ∉ x := fun x hx =>
        hl x (List.mem_cons_of_mem s hx)
      have hjoin : cs "," ++ pyJoin (cs ",") (t :: rest2) =
          ',' :: pyJoin (cs ",") (t :: rest2) := rfl
      rw [hjoin, pySplit_append_sep s _ hs, ih hrest (by simp)]

theorem parseUserSkills_join (l : List Str) (hl : ∀ s ∈ l, ',' ∉ s)
    (hne : l ≠ []) :
    parseUserSkills (.ofString (pyJoin (cs ",") l)) =
      parseUserSkills (.ofList l) := by
  rw [parseUserSkills, parseUserSkills, pySplit_pyJoin l hl hne]
  congr 1
  apply List.filter_congr
  intro s _
  cases s with
  | nil => rfl
  | cons c rest => simp [pyStrip]

/-- The comma-join of a non-empty list of comma-free strings is empty only
for the singleton empty string. -/
theorem pyJoin_eq_nil (l : List Str) (hne : l ≠ [])
    (hj : pyJoin (cs ",") l = []) : l = [[]] := by
  cases l with
  | nil => exact absurd rfl hne
  | cons s rest =>
    cases rest with
    | nil =>
      rw [pyJoin] at hj
      rw [hj]
    | cons t rest2 =>
      have hexp : pyJoin (cs ",") (s :: t :: rest2) =
          s ++ (cs "," ++ pyJoin (cs ",") (t :: rest2)) := by
        simp [pyJoin, List.append_assoc]
      rw [hexp] at hj
      rcases s with _ | ⟨c, s'⟩
      · simp [cs] at hj
      · simp at hj

/-- C10: with the required skills and profile fixed, a comma-free skill
list and its comma-joined string produce the same score. -/
theorem claim_C10 (l : List Str) (rs : List Str) (prof : Option UserRec)
    (hl : ∀ s ∈ l, ',' ∉ s) :
    calculate_skill_match_score (.ofList l) rs prof =
      calculate_skill_match_score (.ofString (pyJoin (cs ",") l)) rs prof := by
  by_cases hne : l = []
  · subst hne
    rfl
  · by_cases hj : pyJoin (cs ",") l = []
    · have hl1 : l = [[]] := pyJoin_eq_nil l hne hj
      subst hl1
      rw [hj]
      rw [calculate_skill_match_score, calculate_skill_match_score]
      by_cases hrs : rs.isEmpty
      · simp [hrs, SkillsInput.truthy]
      · simp [hrs, SkillsInput.truthy, parseUserSkills, pyStrip]
    · rw [calculate_skill_match_score, calculate_skill_match_score]
      have ht1 : (SkillsInput.ofList l).truthy = true := by
        simp [SkillsInput.truthy, List.isEmpty_iff, hne]
      have ht2 : (SkillsInput.ofString (pyJoin (cs ",") l)).truthy = true := by
        simp [SkillsInput.truthy, List.isEmpty_iff, hj]
      rw [ht1, ht2, parseUserSkills_join l hl hne]

theorem claim_C10_witness :
    (calculate_skill_match_score (.ofList [cs "python", cs "py"])
        [cs "python"] none =
      calculate_skill_match_score
        (.ofString (pyJoin (cs ",") [cs "python", cs "py"]))
        [cs "python"] none) ∧
    pyJoin (cs ",") [cs "python", cs "py"] = cs "python,py" ∧
    calculate_skill_match_score (.ofString (cs "python,py"))
        [cs "python"] none = qofNat 100 :=
  ⟨claim_C10 [cs "python", cs "py"] [cs "python"] none (by decide),
   by decide, by decide⟩

/- ### C6: the sticky model-handle state machine -/

/-- C6: (1) a resolved state is never re-entered — every later call
returns the same pair without re-attempting initialization; (2) the very
first call resolves the state (to Ready or Failed); (3) any sequence of
later calls, under any environments, leaves the once-resolved state
unchanged; (4) a second call returns exactly the resolved state and its
model; (5) a missing (or empty) credential resolves to Failed, returning
no model — permanently, by (3) and (4). -/
theorem claim_C6 :
    (∀ (env : GeminiEnv) (s : GeminiState),
      (s.model.isSome || s.error.isSome) = true →
        get_gemini_model env s = (s, s.model)) ∧
    (∀ env : GeminiEnv,
      ((get_gemini_model env geminiInit).1.model.isSome ||
        (get_gemini_model env geminiInit).1.error.isSome) = true) ∧
    (∀ (env : GeminiEnv) (es : List GeminiEnv),
      runGemini es (get_gemini_model env geminiInit).1 =
        (get_gemini_model env geminiInit).1) ∧
    (∀ env env' : GeminiEnv,
      get_gemini_model env' (get_gemini_model env geminiInit).1 =
        ((get_gemini_model env geminiInit).1,
          (get_gemini_model env geminiInit).1.model)) ∧
    (∀ env : GeminiEnv, keyTruthy env.apiKey = false →
      (get_gemini_model env geminiInit).1.model = none ∧
      (get_gemini_model env geminiInit).2 = none) := by
  have hfix : ∀ (env : GeminiEnv) (s : GeminiState),
      (s.model.isSome || s.error.isSome) = true →
        get_gemini_model env s = (s, s.model) := by
    intro env s h
    rw [get_gemini_model, if_pos h]
  have hres : ∀ env : GeminiEnv,
      ((get_gemini_model env geminiInit).1.model.isSome ||
        (get_gemini_model env geminiInit).1.error.isSome) = true := by
    intro env
    rw [get_gemini_model]
    rw [if_neg (by simp [geminiInit])]
    split
    · simp [geminiInit]
    · split
      · simp
      · split
        · simp
        · simp
  refine ⟨hfix, hres, ?_, ?_, ?_⟩
  · intro env es
    induction es with
    | nil => rfl
    | cons e es ih =>
      rw [runGemini, hfix e _ (hres env)]
      exact ih
  · intro env env'
    exact hfix env' _ (hres env)
  · intro env hkey
    rw [get_gemini_model]
    rw [if_neg (by simp [geminiInit])]
    rw [if_pos (by simp [hkey])]
    exact ⟨rfl, rfl⟩

theorem claim_C6_witness :
    get_gemini_model ⟨some (cs "key"), true, true⟩
        ⟨some GeminiModel.flash, none⟩ =
      (⟨some GeminiModel.flash, none⟩, some GeminiModel.flash) :=
  claim_C6.1 ⟨some (cs "key"), true, true⟩ ⟨some GeminiModel.flash, none⟩
    (by decide)

/- ### C9: the bounded history and its use in prompting -/

/-- The last-`n` suffix of a list. -/
def lastN (n : Nat) (l : List Turn) : List Turn := l.drop (l.length - n)

theorem appendTurn_lastN (l : List Turn) (t : Turn) :
    appendTurn (lastN 5 l) t = lastN 5 (l ++ [t]) := by
  rw [appendTurn, lastN, lastN]
  by_cases h5 : l.length ≤ 5
  · have hz : l.length - 5 = 0 := by omega
    rw [hz, List.drop_zero]
    split
    · rename_i h
      simp only [List.length_append, List.length_cons, List.length_nil] at h ⊢
    · rename_i h
      simp only [List.length_append, List.length_cons, List.length_nil] at h ⊢
      have hz2 : l.length + 1 - 5 = 0 := by omega
      rw [hz2, List.drop_zero]
  · push_neg at h5
    have hlen : (l.drop (l.length - 5)).length = 5 := by
      simp only [List.length_drop]
      omega
    split
    · rename_i h
      have ha : (l.drop (l.length - 5) ++ [t]).length - 5 = 1 := by
        simp only [List.length_append, List.length_cons, List.length_nil,
          hlen]
      have hb : (l ++ [t]).length - 5 = l.length - 4 := by
        simp only [List.length_append, List.length_cons, List.length_nil]
        omega
      rw [ha, hb]
      rw [List.drop_append_of_le_length (by rw [hlen]; omega),
        List.drop_append_of_le_length (by omega)]
      rw [List.drop_drop]
      congr 2
      omega
    · rename_i h
      exfalso
      simp only [List.length_append, List.length_cons, List.length_nil,
        hlen] at h
      omega

theorem foldl_appendTurn (ts : List Turn) :
    ∀ (pfull : List Turn),
      ts.foldl appendTurn (lastN 5 pfull) = lastN 5 (pfull ++ ts) := by
  induction ts with
  | nil => intro pfull; simp
  | cons t rest ih =>
    intro pfull
    rw [List.foldl_cons, appendTurn_lastN, ih (pfull ++ [t])]
    rw [List.append_assoc]
    rfl

/-- C9: the history kept by the chat path is always the last five turns —
one `appendTurn` preserves the `length ≤ 5` invariant and evicts exactly
the oldest turn, any run of appends from the empty history yields the
last-5 suffix of all turns (so the length never exceeds 5), and the
prompt context builder reads only the most recent three turns. -/
theorem claim_C9 :
    (∀ (h : List Turn) (t : Turn),
      (appendTurn h t).length = min (h.length + 1) 5) ∧
    (∀ (h : List Turn) (t : Turn),
      h.length ≤ 5 → appendTurn h t = lastN 5 (h ++ [t])) ∧
    (∀ ts : List Turn, ts.foldl appendTurn [] = lastN 5 ts) ∧
    (∀ ts : List Turn, (ts.foldl appendTurn []).length ≤ 5) ∧
    (∀ h : List Turn,
      build_conversation_context h =
        build_conversation_context (h.drop (h.length - 3))) := by
  have h2 : ∀ (h : List Turn) (t : Turn),
      h.length ≤ 5 → appendTurn h t = lastN 5 (h ++ [t]) := by
    intro h t hle
    have : lastN 5 h = h := by
      rw [lastN]
      have hz : h.length - 5 = 0 := by omega
      rw [hz, List.drop_zero]
    conv_lhs => rw [← this]
    exact appendTurn_lastN h t
  have h3 : ∀ ts : List Turn, ts.foldl appendTurn [] = lastN 5 ts := by
    intro ts
    have := foldl_appendTurn ts []
    simpa [lastN] using this
  refine ⟨?_, h2, h3, ?_, ?_⟩
  · intro h t
    rw [appendTurn]
    split
    · rename_i hgt
      simp only [List.length_drop, List.length_append, List.length_cons,
        List.length_nil] at hgt ⊢
      omega
    · rename_i hle
      simp only [List.length_append, List.length_cons, List.length_nil] at hle ⊢
      omega
  · intro ts
    rw [h3, lastN]
    simp only [List.length_drop]
    omega
  · intro h
    rw [build_conversation_context, build_conversation_context]
    by_cases hh : h.isEmpty
    · rw [List.isEmpty_iff] at hh
      subst hh
      simp
    · have hne : h ≠ [] := by
        intro hcon
        rw [hcon] at hh
        simp at hh
      have hlen : 0 < h.length := List.length_pos.mpr hne
      have hdr : (h.drop (h.length - 3)).length = min 3 h.length := by
        simp only [List.length_drop]
        omega
      have hne2 : ¬ (h.drop (h.length - 3)).isEmpty = true := by
        intro hcon
        rw [List.isEmpty_iff] at hcon
        have hlc := congrArg List.length hcon
        rw [hdr] at hlc
        simp only [List.length_nil] at hlc
        omega
      have hz : (h.drop (h.length - 3)).length - 3 = 0 := by
        rw [hdr]
        omega
      rw [if_neg (by simpa [List.isEmpty_iff] using hne), if_neg hne2]
      simp only [hz, List.drop_zero]

/- ### C3 / C7: shape of the fallback replies -/

/-- The first characters of the fallback templates, per branch. -/
def fallbackHeads : List Char :=
  ['💻', '🎓', '🚀', '🌟', '💪', '🤖', '👋', '✨', '🎯', '✅', '💰', '📄', '📞']

theorem general_head (m name : Str) :
    ∃ c r, get_enhanced_general_response m name = c :: r ∧
      c ∈ fallbackHeads := by
  rw [get_enhanced_general_response]
  split
  · exact ⟨'💻', _, rfl, by decide⟩
  · split
    · exact ⟨'🎓', _, rfl, by decide⟩
    · split
      · exact ⟨'🚀', _, rfl, by decide⟩
      · split
        · exact ⟨'🌟', _, rfl, by decide⟩
        · split
          · exact ⟨'💪', _, rfl, by decide⟩
          · exact ⟨'🤖', _, rfl, by decide⟩

theorem gfr_head (fenv : FbEnv) (m : Str) :
    ∃ c r, get_fallback_response fenv m = c :: r ∧ c ∈ fallbackHeads := by
  rw [get_fallback_response]
  split
  · exact general_head m (fenv.sessionUserName.getD (cs "there"))
  · split
    · have hm : fenv.randIdx % 3 = 0 ∨ fenv.randIdx % 3 = 1 ∨
          fenv.randIdx % 3 = 2 := by omega
      rcases fenv.profile with - | p
      · rcases hm with hm | hm | hm
        · rw [hm]; exact ⟨'👋', _, rfl, by decide⟩
        · rw [hm]; exact ⟨'🌟', _, rfl, by decide⟩
        · rw [hm]; exact ⟨'✨', _, rfl, by decide⟩
      · by_cases hp : p.profile_completed
        · simp only [hp]
          rcases hm with hm | hm | hm
          · rw [hm]; exact ⟨'👋', _, rfl, by decide⟩
          · rw [hm]; exact ⟨'🌟', _, rfl, by decide⟩
          · rw [hm]; exact ⟨'✨', _, rfl, by decide⟩
        · simp only [Bool.not_eq_true] at hp
          simp only [hp]
          rcases hm with hm | hm | hm
          · rw [hm]; exact ⟨'👋', _, rfl, by decide⟩
          · rw [hm]; exact ⟨'🌟', _, rfl, by decide⟩
          · rw [hm]; exact ⟨'✨', _, rfl, by decide⟩
    · split
      · exact ⟨'🎯', _, rfl, by decide⟩
      · split
        · exact ⟨'✅', _, rfl, by decide⟩
        · split
          · exact ⟨'💰', _, rfl, by decide⟩
          · split
            · exact ⟨'📄', _, rfl, by decide⟩
            · split
              · exact ⟨'📞', _, rfl, by decide⟩
              · exact ⟨'🤖', _, rfl, by decide⟩

theorem clean_head (c : Char) (r : Str) (hc : ('\\' == c) = false) :
    ∃ r', clean_response_formatting (c :: r) = c :: r' := by
  rw [clean_response_formatting]
  split
  · rw [pyReplace, List.length_cons, pyReplaceFuel]
    rw [if_neg (by simp [cs, List.isPrefixOf, hc])]
    exact ⟨_, rfl⟩
  · exact ⟨r, rfl⟩

theorem gfr_clean_head (fenv : FbEnv) (m : Str) :
    ∃ c r, clean_response_formatting (get_fallback_response fenv m) = c :: r ∧
      c ∈ fallbackHeads := by
  obtain ⟨c, r, hr, hmem⟩ := gfr_head fenv m
  have hc : ('\\' == c) = false :=
    (by decide : ∀ x ∈ fallbackHeads, ('\\' == x) = false) c hmem
  obtain ⟨r', hr'⟩ := clean_head c r hc
  exact ⟨c, r', by rw [hr, hr'], hmem⟩

/-- Every (cleaned) fallback reply is non-empty and differs from both
validation-error replies. -/
theorem fallback_reply_shape (fenv : FbEnv) (m : Str) :
    clean_response_formatting (get_fallback_response fenv m) ≠ [] ∧
    clean_response_formatting (get_fallback_response fenv m) ≠
      noMessageReply ∧
    clean_response_formatting (get_fallback_response fenv m) ≠
      tooLongReply := by
  obtain ⟨c, r, hr, hmem⟩ := gfr_clean_head fenv m
  rw [hr]
  have hq : c ≠ '🤔' ∧ c ≠ '📝' :=
    (by decide : ∀ x ∈ fallbackHeads, x ≠ '🤔' ∧ x ≠ '📝') c hmem
  refine ⟨by simp, ?_, ?_⟩
  · intro hcon
    have : c = '🤔' := by
      have := congrArg (fun l => l.head?) hcon
      simpa [noMessageReply, cs] using this
    exact hq.1 this
  · intro hcon
    have : c = '📝' := by
      have := congrArg (fun l => l.head?) hcon
      simpa [tooLongReply, cs] using this
    exact hq.2 this

/-- Chat environment in which the AI path fails at the model handle. -/
def c3Env : ChatEnv := ⟨false, .error (cs "timeout"), none, none, 0, []⟩

/-- C3 counterexample: when the AI path fails, the route answers 200 with
the keyword fallback reply and `success: true`, but the response carries
*no* used-fallback flag (`fallback = none`, and `none ≠ some true`) — the
flag field exists only on the route-level exception path,
which AI failures never reach because `get_gemini_response` swallows
them. -/
theorem claim_C3_counterexample :
    chat c3Env (some (cs "hello")) =
      ⟨200, true, none,
        clean_response_formatting
          (get_fallback_response c3Env.fbEnv (cs "hello")), none⟩ ∧
    clean_response_formatting
      (get_fallback_response c3Env.fbEnv (cs "hello")) ≠ [] ∧
    (none : Option Bool) ≠ some true := by
  refine ⟨?_, (fallback_reply_shape c3Env.fbEnv (cs "hello")).1, by simp⟩
  rw [chat]
  simp only [Option.getD_some]
  rw [if_neg (by decide), if_neg (by decide)]
  rw [get_gemini_response]
  rw [show c3Env.modelReady = false from rfl]
  rw [show pyStrip (cs "hello") = cs "hello" from by decide]
  rw [if_pos (by decide : (!false) = true)]

/-- C3 (amended): for every chat request passing validation whose AI path
fails (model handle failed, or the external call raised — timeout, quota,
network, malformed response), the route never raises and returns status
200, `success: true`, and the non-empty keyword-matched fallback reply;
the response carries no used-fallback flag. -/
theorem claim_C3_amended (env : ChatEnv) (msg : Str)
    (hv1 : pyStrip msg ≠ []) (hv2 : (pyStrip msg).length ≤ 500)
    (hfail : env.modelReady = false ∨ ∃ e, env.aiResult = .error e) :
    chat env (some msg) =
      ⟨200, true, none,
        clean_response_formatting
          (get_fallback_response env.fbEnv (pyStrip msg)), none⟩ ∧
    clean_response_formatting
      (get_fallback_response env.fbEnv (pyStrip msg)) ≠ [] := by
  have hreply : (get_gemini_response env (pyStrip msg)).1 =
      clean_response_formatting
        (get_fallback_response env.fbEnv (pyStrip msg)) := by
    rw [get_gemini_response]
    rcases hfail with hready | ⟨e, herr⟩
    · rw [hready]
      rfl
    · by_cases hready : env.modelReady
      · rw [hready, herr]
        rfl
      · simp only [hready]
        rfl
  have hchat : chat env (some msg) =
      ⟨200, true, none,
        clean_response_formatting
          (get_fallback_response env.fbEnv (pyStrip msg)), none⟩ := by
    rw [chat]
    simp only [Option.getD_some]
    rw [if_neg (by simpa [List.isEmpty_iff] using hv1)]
    rw [if_neg (by omega)]
    rw [hreply]
  exact ⟨hchat, (fallback_reply_shape env.fbEnv (pyStrip msg)).1⟩

theorem claim_C3_witness :
    (chat c3Env (some (cs "hi")) =
      ⟨200, true, none,
        clean_response_formatting
          (get_fallback_response c3Env.fbEnv (pyStrip (cs "hi"))), none⟩) ∧
    clean_response_formatting
      (get_fallback_response c3Env.fbEnv (pyStrip (cs "hi"))) ≠ [] :=
  claim_C3_amended c3Env (cs "hi") (by decide) (by decide) (Or.inl rfl)

/- ### C7: message validation -/

/-- Chat environment whose AI call succeeds with the reply `ok`. -/
def c7Env : ChatEnv := ⟨true, .ok (cs "ok"), none, none, 0, []⟩

/-- A 501-character message whose first character is a space: longer than
500 characters, but only 500 characters after stripping. -/
def c7Msg : Str := ' ' :: List.replicate 500 'a'

/-- C7 counterexample: a message longer than 500 characters that the route
accepts (status 200, no validation error), because the length check runs
on the stripped message. -/
theorem claim_C7_counterexample :
    c7Msg.length = 501 ∧
    chat c7Env (some c7Msg) = ⟨200, true, none, cs "ok", none⟩ ∧
    (200 : Nat) ≠ 400 :=
  ⟨by decide, by decide, by decide⟩

/-- C7 (amended): validation is decided on the *trimmed* message — a
message that is empty after trimming gets the empty-message 400 error, a
trimmed message longer than 500 characters gets the distinct over-length
400 error, the two validation responses differ (in both `error` and
`reply`), and no fallback reply ever equals either validation reply, so
validation errors are never swallowed into the fallback path. -/
theorem claim_C7_amended (env : ChatEnv) (msg : Option Str) :
    (pyStrip (msg.getD []) = [] →
      chat env msg =
        ⟨400, false, some (cs "No message provided"), noMessageReply,
          none⟩) ∧
    (pyStrip (msg.getD []) ≠ [] → 500 < (pyStrip (msg.getD [])).length →
      chat env msg =
        ⟨400, false, some (cs "Message too long"), tooLongReply, none⟩) ∧
    noMessageReply ≠ tooLongReply ∧
    cs "No message provided" ≠ cs "Message too long" ∧
    (∀ (fenv : FbEnv) (m : Str),
      clean_response_formatting (get_fallback_response fenv m) ≠
        noMessageReply ∧
      clean_response_formatting (get_fallback_response fenv m) ≠
        tooLongReply) := by
  refine ⟨?_, ?_, by decide, by decide, ?_⟩
  · intro h
    rw [chat]
    rw [if_pos (by simp [List.isEmpty_iff, h])]
  · intro hne hlen
    rw [chat]
    rw [if_neg (by simpa [List.isEmpty_iff] using hne)]
    rw [if_pos hlen]
  · intro fenv m
    exact ⟨(fallback_reply_shape fenv m).2.1, (fallback_reply_shape fenv m).2.2⟩

theorem claim_C7_witness :
    chat c7Env (some (cs "   ")) =
      ⟨400, false, some (cs "No message provided"), noMessageReply, none⟩ ∧
    chat c7Env (some (' ' :: List.replicate 501 'b')) =
      ⟨400, false, some (cs "Message too long"), tooLongReply, none⟩ :=
  ⟨(claim_C7_amended c7Env (some (cs "   "))).1 (by decide),
   (claim_C7_amended c7Env (some (' ' :: List.replicate 501 'b'))).2.1
     (by decide) (by decide)⟩

theorem claim_C9_witness :
    appendTurn
        [⟨cs "q1", cs "a1"⟩, ⟨cs "q2", cs "a2"⟩, ⟨cs "q3", cs "a3"⟩,
         ⟨cs "q4", cs "a4"⟩, ⟨cs "q5", cs "a5"⟩] ⟨cs "q6", cs "a6"⟩ =
      lastN 5
        ([⟨cs "q1", cs "a1"⟩, ⟨cs "q2", cs "a2"⟩, ⟨cs "q3", cs "a3"⟩,
          ⟨cs "q4", cs "a4"⟩, ⟨cs "q5", cs "a5"⟩] ++ [⟨cs "q6", cs "a6"⟩]) :=
  claim_C9.2.1
    [⟨cs "q1", cs "a1"⟩, ⟨cs "q2", cs "a2"⟩, ⟨cs "q3", cs "a3"⟩,
     ⟨cs "q4", cs "a4"⟩, ⟨cs "q5", cs "a5"⟩] ⟨cs "q6", cs "a6"⟩ (by decide)
